import Mathlib

/-!
Verification of the FF14 strategy-board share-code codec
(src/python/stgy_encoder.py and src/python/stgy_decoder.py).

Shallow embedding conventions:
- Python `bytes` values are `List Nat` with every element below 256.
- Python strings are `List Nat` of Unicode code points (the share-code
  strings are ASCII, so code points coincide with bytes there).
- Python `struct.pack`/`pack_into` raise `struct.error` on out-of-range
  values; the embedding returns `Option` and yields `none` in that case.
- Python floats for the x/y coordinates are modelled as exact rationals;
  `int(x * 10)` becomes truncation toward zero of the rational `x * 10`
  (IEEE-754 rounding of the intermediate float product is not modelled).
- `zlib.compress` / `zlib.decompress` are external library calls, not code
  of this repository; they are passed in as parameters (`compress`,
  `decompress`), and round-trip theorems assume `decompress (compress x) =
  some x` together with bytes staying below 256, which is the documented
  zlib contract.  `zlib.crc32` is implemented concretely below.
- Python dicts with `get`-defaults are modelled as total records where a
  missing key is identified with the default the reading code supplies
  (e.g. a missing `"type_id"` is `0`, which Python's `or` also treats as
  missing; a missing `"transparency"` is `0`).
-/

/-! ## Cipher substitution tables (from both source files) -/

/-- `DAT_1420cf520` from stgy_decoder.py / stgy_encoder.py: 43 zero bytes
followed by the 80-byte substitution tail; index = cipher character code,
value = standard base64 character code (0 = unmapped). -/
def DAT_1420cf520 : List Nat :=
  List.replicate 43 0 ++
  [78, 0, 80, 0, 0, 120, 103, 48, 75, 56, 83, 74, 50, 115, 90, 0, 0, 0, 0, 0,
   0, 0, 68, 70, 116, 84, 54, 69, 97, 86, 99, 112, 76, 77, 109, 101, 106, 57,
   88, 66, 52, 82, 89, 55, 95, 110, 79, 98, 0, 0, 0, 0, 0, 0, 105, 45, 118,
   72, 67, 65, 114, 87, 111, 100, 73, 113, 104, 85, 108, 107, 51, 102, 121,
   53, 71, 119, 49, 117, 122, 81]

/-- `INVERSE_DAT_1420cf4a0` (decoder) = `INVERSE_DAT` (encoder): maps a
cipher character code to a standard URL-safe base64 character code. -/
def INVERSE_DAT_1420cf4a0 : List (Nat × Nat) :=
  [(98, 45), (50, 48), (119, 49), (55, 50), (113, 51), (83, 52), (116, 53),
   (69, 54), (86, 55), (52, 56), (80, 57), (102, 65), (82, 66), (101, 67),
   (65, 68), (70, 69), (66, 70), (117, 71), (100, 72), (107, 73), (54, 74),
   (51, 75), (75, 76), (76, 77), (43, 78), (89, 79), (45, 80), (122, 81),
   (84, 82), (53, 83), (68, 84), (110, 85), (72, 86), (104, 87), (81, 88),
   (85, 89), (57, 90), (87, 95), (71, 97), (90, 98), (73, 99), (106, 100),
   (78, 101), (114, 102), (49, 103), (109, 104), (97, 105), (79, 106),
   (112, 107), (111, 108), (77, 109), (88, 110), (105, 111), (74, 112),
   (108, 113), (103, 114), (56, 115), (67, 116), (120, 117), (99, 118),
   (118, 119), (48, 120), (115, 121), (121, 122)]

/-- Lookup in a `Nat`-keyed association list (Python `dict.get`). -/
def lookupNat (l : List (Nat × Nat)) (k : Nat) : Option Nat :=
  (l.find? (fun p => p.1 == k)).map (fun p => p.2)

/-- `FORWARD_DAT = {v: k for k, v in INVERSE_DAT.items()}` (encoder). -/
def FORWARD_DAT : List (Nat × Nat) :=
  INVERSE_DAT_1420cf4a0.map (fun p => (p.2, p.1))

/-- `KEY_REVERSE[DAT_1420cf520[i]] = i` for the nonzero entries (encoder);
since the nonzero entries are pairwise distinct, dict lookup is the first
index carrying the key. -/
def KEY_REVERSE (c : Nat) : Option Nat :=
  (List.range 123).find? (fun i => DAT_1420cf520.getD i 0 == c && c != 0)

/-! ## Base64 character/value maps (identical in both files) -/

/-- `char_to_base64_value` on a character code (unmapped inputs give 0). -/
def char_to_base64_value (o : Nat) : Nat :=
  if 65 ≤ o ∧ o ≤ 90 then o - 65
  else if 97 ≤ o ∧ o ≤ 122 then o - 71
  else if 48 ≤ o ∧ o ≤ 57 then o + 4
  else if o = 45 then 62
  else if o = 95 then 63
  else 0

/-- `base64_value_to_char`: 6-bit value to URL-safe base64 character code. -/
def base64_value_to_char (v : Nat) : Nat :=
  let val := v % 64
  if val < 26 then val + 65
  else if val < 52 then val + 71
  else if val < 62 then val - 4
  else if val = 62 then 45
  else 95

/-! ## Standard base64 (model of Python's `base64` module)

`b64ValsOfBytes` lists the 6-bit groups of `base64.b64encode` with the
`'='` padding already stripped (the encoder strips it immediately).
`b64BytesOfVals` models `base64.b64decode(s + "==")` as observed:
a leftover group of one character is an error, leftovers of two or three
characters decode to one or two bytes. -/

def b64ValsOfBytes : List Nat → List Nat
  | [] => []
  | [a] => [a / 4, a % 4 * 16]
  | [a, b] => [a / 4, a % 4 * 16 + b / 16, b % 16 * 4]
  | a :: b :: c :: rest =>
      a / 4 :: (a % 4 * 16 + b / 16) :: (b % 16 * 4 + c / 64) :: c % 64 ::
        b64ValsOfBytes rest

def b64BytesOfVals : List Nat → Option (List Nat)
  | [] => some []
  | [_] => none
  | [a, b] => some [a % 64 * 4 + b / 16]
  | [a, b, c] => some [a % 64 * 4 + b / 16, b % 16 * 16 + c / 4]
  | a :: b :: c :: d :: rest =>
      (b64BytesOfVals rest).map
        (fun r => (a % 64 * 4 + b / 16) :: (b % 16 * 16 + c / 4) ::
          (c % 4 * 64 + d % 64) :: r)

/-! ## CRC-32 (model of `zlib.crc32`, polynomial 0xEDB88320) -/

def crc32Step (c : Nat) : Nat :=
  if c % 2 = 1 then c / 2 ^^^ 0xEDB88320 else c / 2

def crc32Byte (c b : Nat) : Nat := crc32Step^[8] (c ^^^ b % 256)

def crc32 (l : List Nat) : Nat :=
  (l.foldl crc32Byte 0xFFFFFFFF) ^^^ 0xFFFFFFFF

/-! ## Cipher codec (encoder `encode_cipher`, decoder `decode_cipher`)

`encode_cipher` takes the compression function and the key explicitly
(the source draws `key = random.randint(0, 63)` when no key is given;
the draw is modelled as the extra argument).  The result is the list of
character codes of the `[stgy:a...]` string, or `none` where the source
would raise `struct.error` (`struct.pack('<H', length)` with
`length ≥ 2^16`). -/

/-- `[f(i, c) for i, c in enumerate(l)]`. -/
def mapIdx (f : Nat → Nat → Nat) : List Nat → List Nat
  | [] => []
  | a :: t => f 0 a :: mapIdx (fun i x => f (i + 1) x) t

/-- Character codes of the literal `"[stgy:a"`. -/
def stgyPrefix : List Nat := [91, 115, 116, 103, 121, 58, 97]

def encode_cipher (compress : List Nat → List Nat)
    (binary_data : List Nat) (key : Nat) : Option (List Nat) :=
  let compressed := compress binary_data
  let length := binary_data.length
  if length < 65536 then
    let length_bytes := [length % 256, length / 256]
    let checksum := crc32 (length_bytes ++ compressed) % 4294967296
    let header := [checksum % 256, checksum / 256 % 256,
                   checksum / 65536 % 256, checksum / 16777216 % 256] ++
                  length_bytes
    let full_data := header ++ compressed
    let b64chars := (b64ValsOfBytes full_data).map base64_value_to_char
    let key_char_standard := base64_value_to_char key
    let key_source := (KEY_REVERSE key_char_standard).getD 86
    let encoded := mapIdx
      (fun i c =>
        (lookupNat FORWARD_DAT
          (base64_value_to_char ((char_to_base64_value c + i + key) % 64))).getD 65)
      b64chars
    some (stgyPrefix ++ key_source :: encoded ++ [93])
  else none

/-- Failure modes of `decode_cipher`: Python `IndexError` (empty payload or
key character beyond the 123-entry table), `binascii.Error` (bad base64
length), `zlib.error` (decompression failure). -/
inductive DecodeErr where
  | indexError : DecodeErr
  | base64Error : DecodeErr
  | zlibError : DecodeErr
  deriving DecidableEq

/-- `decode_cipher` up to (excluding) `zlib.decompress`: undoes the
character cipher and base64, then drops the 6-byte container header
(`binary_data[6:]`).  The input is the character-code list of the whole
share-code string; `data = stgy_string[7:-1]` is blind slicing. -/
def decode_cipher_stages (stgy_string : List Nat) :
    Except DecodeErr (List Nat) :=
  let data := (stgy_string.drop 7).dropLast
  match data with
  | [] => .error .indexError
  | key_char :: rest =>
    if 123 ≤ key_char then .error .indexError
    else
      let key := char_to_base64_value (DAT_1420cf520.getD key_char 0)
      let decoded := mapIdx
        (fun i c =>
          base64_value_to_char
            ((((char_to_base64_value ((lookupNat INVERSE_DAT_1420cf4a0 c).getD 65)
                : Int) - i - key) % 64).toNat))
        rest
      match b64BytesOfVals (decoded.map char_to_base64_value) with
      | none => .error .base64Error
      | some binary_data => .ok (binary_data.drop 6)

/-- Full `decode_cipher`: cipher stages then `zlib.decompress`. -/
def decode_cipher (decompress : List Nat → Option (List Nat))
    (stgy_string : List Nat) : Except DecodeErr (List Nat) :=
  match decode_cipher_stages stgy_string with
  | .error e => .error e
  | .ok bytes =>
    match decompress bytes with
    | some b => .ok b
    | none => .error .zlibError

/-! ## Icon registry (decoder `ICON_TYPES`, encoder `ICON_TYPE_IDS`) -/

/-- `ICON_TYPES` from stgy_decoder.py: icon-type id to semantic name. -/
def ICON_TYPES : List (Nat × String) :=
  [(4, "checkered_circle"), (8, "checkered_square"), (124, "grey_circle"), (125, "grey_square"),
   (9, "circle_aoe"), (10, "fan_aoe"), (11, "line_aoe"), (12, "line"),
   (13, "gaze"), (14, "stack"), (15, "line_stack"), (16, "proximity"),
   (17, "donut"), (106, "stack_multi"), (107, "proximity_player"), (108, "tankbuster"),
   (109, "radial_knockback"), (110, "linear_knockback"), (111, "tower"), (112, "targeting"),
   (126, "moving_circle_aoe"), (127, "1person_aoe"), (128, "2person_aoe"), (129, "3person_aoe"),
   (130, "4person_aoe"), (18, "gladiator"), (19, "pugilist"), (20, "marauder"),
   (21, "lancer"), (22, "archer"), (23, "conjurer"), (24, "thaumaturge"),
   (25, "arcanist"), (26, "rogue"), (27, "paladin"), (28, "monk"),
   (29, "warrior"), (30, "dragoon"), (31, "bard"), (32, "white_mage"),
   (33, "black_mage"), (34, "summoner"), (35, "scholar"), (36, "ninja"),
   (37, "machinist"), (38, "dark_knight"), (39, "astrologian"), (40, "samurai"),
   (41, "red_mage"), (42, "blue_mage"), (43, "gunbreaker"), (44, "dancer"),
   (45, "reaper"), (46, "sage"), (101, "viper"), (102, "pictomancer"),
   (47, "tank"), (48, "tank_1"), (49, "tank_2"), (50, "healer"),
   (51, "healer_1"), (52, "healer_2"), (53, "dps"), (54, "dps_1"),
   (55, "dps_2"), (56, "dps_3"), (57, "dps_4"), (118, "melee_dps"),
   (119, "ranged_dps"), (120, "physical_ranged_dps"), (121, "magical_ranged_dps"), (122, "pure_healer"),
   (123, "barrier_healer"), (60, "small_enemy"), (62, "medium_enemy"), (64, "large_enemy"),
   (65, "attack_1"), (66, "attack_2"), (67, "attack_3"), (68, "attack_4"),
   (69, "attack_5"), (115, "attack_6"), (116, "attack_7"), (117, "attack_8"),
   (70, "bind_1"), (71, "bind_2"), (72, "bind_3"), (73, "ignore_1"),
   (74, "ignore_2"), (75, "square_marker"), (76, "circle_marker"), (77, "plus_marker"),
   (78, "triangle_marker"), (79, "waymark_a"), (80, "waymark_b"), (81, "waymark_c"),
   (82, "waymark_d"), (83, "waymark_1"), (84, "waymark_2"), (85, "waymark_3"),
   (86, "waymark_4"), (87, "shape_circle"), (88, "shape_x"), (89, "shape_triangle"),
   (90, "shape_square"), (94, "up_arrow"), (100, "text"), (103, "rotate"),
   (135, "highlighted_circle"), (136, "highlighted_x"), (137, "highlighted_square"), (138, "highlighted_triangle"),
   (139, "rotate_clockwise"), (140, "rotate_counterclockwise"), (113, "enhancement"), (114, "enfeeblement"),
   (131, "lockon_red"), (132, "lockon_blue"), (133, "lockon_purple"), (134, "lockon_green"),
   (105, "group")]

/-- `ICON_TYPE_IDS` from stgy_encoder.py: semantic name to icon-type id. -/
def ICON_TYPE_IDS : List (String × Nat) :=
  [("checkered_circle", 4), ("checkered_square", 8), ("grey_circle", 124), ("grey_square", 125),
   ("circle_aoe", 9), ("fan_aoe", 10), ("line_aoe", 11), ("line", 12),
   ("gaze", 13), ("stack", 14), ("line_stack", 15), ("proximity", 16),
   ("donut", 17), ("stack_multi", 106), ("proximity_player", 107), ("tankbuster", 108),
   ("radial_knockback", 109), ("linear_knockback", 110), ("tower", 111), ("targeting", 112),
   ("moving_circle_aoe", 126), ("1person_aoe", 127), ("2person_aoe", 128), ("3person_aoe", 129),
   ("4person_aoe", 130), ("gladiator", 18), ("pugilist", 19), ("marauder", 20),
   ("lancer", 21), ("archer", 22), ("conjurer", 23), ("thaumaturge", 24),
   ("arcanist", 25), ("rogue", 26), ("paladin", 27), ("monk", 28),
   ("warrior", 29), ("dragoon", 30), ("bard", 31), ("white_mage", 32),
   ("black_mage", 33), ("summoner", 34), ("scholar", 35), ("ninja", 36),
   ("machinist", 37), ("dark_knight", 38), ("astrologian", 39), ("samurai", 40),
   ("red_mage", 41), ("blue_mage", 42), ("gunbreaker", 43), ("dancer", 44),
   ("reaper", 45), ("sage", 46), ("viper", 101), ("pictomancer", 102),
   ("tank", 47), ("tank_1", 48), ("tank_2", 49), ("healer", 50),
   ("healer_1", 51), ("healer_2", 52), ("dps", 53), ("dps_1", 54),
   ("dps_2", 55), ("dps_3", 56), ("dps_4", 57), ("melee_dps", 118),
   ("ranged_dps", 119), ("physical_ranged_dps", 120), ("magical_ranged_dps", 121), ("pure_healer", 122),
   ("barrier_healer", 123), ("small_enemy", 60), ("medium_enemy", 62), ("large_enemy", 64),
   ("attack_1", 65), ("attack_2", 66), ("attack_3", 67), ("attack_4", 68),
   ("attack_5", 69), ("attack_6", 115), ("attack_7", 116), ("attack_8", 117),
   ("bind_1", 70), ("bind_2", 71), ("bind_3", 72), ("ignore_1", 73),
   ("ignore_2", 74), ("square_marker", 75), ("circle_marker", 76), ("plus_marker", 77),
   ("triangle_marker", 78), ("waymark_a", 79), ("waymark_b", 80), ("waymark_c", 81),
   ("waymark_d", 82), ("waymark_1", 83), ("waymark_2", 84), ("waymark_3", 85),
   ("waymark_4", 86), ("shape_circle", 87), ("shape_x", 88), ("shape_triangle", 89),
   ("shape_square", 90), ("up_arrow", 94), ("text", 100), ("rotate", 103),
   ("highlighted_circle", 135), ("highlighted_x", 136), ("highlighted_square", 137), ("highlighted_triangle", 138),
   ("rotate_clockwise", 139), ("rotate_counterclockwise", 140), ("enhancement", 113), ("enfeeblement", 114),
   ("lockon_red", 131), ("lockon_blue", 132), ("lockon_purple", 133), ("lockon_green", 134),
   ("group", 105)]

/-- Lookup in a `String`-keyed association list (Python `dict.get`). -/
def lookupStr (l : List (String × Nat)) (k : String) : Option Nat :=
  (l.find? (fun p => p.1 == k)).map (fun p => p.2)

/-- Lookup in a `Nat`-keyed association list with `String` values. -/
def lookupName (l : List (Nat × String)) (k : Nat) : Option String :=
  (l.find? (fun p => p.1 == k)).map (fun p => p.2)

/-- Decoder: `ICON_TYPES.get(icon_id, f"unknown_{icon_id}")`
(stgy_decoder.py line 288). -/
def iconIdToName (icon_id : Nat) : String :=
  (lookupName ICON_TYPES icon_id).getD ("unknown_" ++ Nat.repr icon_id)

/-- Encoder: `ICON_TYPE_IDS.get(type_name, 47)` (stgy_encoder.py line 181). -/
def iconNameToId (type_name : String) : Nat :=
  (lookupStr ICON_TYPE_IDS type_name).getD 47

/-! ## Background tables -/

/-- Decoder `BACKGROUND_TYPES` (per-object backgrounds, tag 6, 0-based). -/
def BACKGROUND_TYPES : List (Nat × String) :=
  [(0, "none"), (1, "checkered"), (2, "checkered_circle"),
   (3, "checkered_square"), (4, "grey"), (5, "grey_circle"), (6, "grey_square")]

/-- Encoder per-object `bg_map` inside `build_binary` (tag 6, 0-based). -/
def encObjBgMap : List (String × Nat) :=
  [("none", 0), ("checkered", 1), ("checkered_circle", 2),
   ("checkered_square", 3), ("grey", 4), ("grey_circle", 5), ("grey_square", 6)]

/-- Encoder footer `bg_map` inside `build_binary` (tag 3, 1-based). -/
def encFooterBgMap : List (String × Nat) :=
  [("none", 1), ("checkered", 2), ("checkered_circle", 3),
   ("checkered_square", 4), ("grey", 5), ("grey_circle", 6), ("grey_square", 7)]

/-- Decoder footer `bg_names` inside `parse_binary` (tag 3, 1-based). -/
def decFooterBgNames : List (Nat × String) :=
  [(1, "none"), (2, "checkered"), (3, "checkered_circle"),
   (4, "checkered_square"), (5, "grey"), (6, "grey_circle"), (7, "grey_square")]

/-- Decoder footer: `bg_names.get(board_bg, f"unknown_{board_bg}")`. -/
def footerBgName (board_bg : Nat) : String :=
  (lookupName decFooterBgNames board_bg).getD ("unknown_" ++ Nat.repr board_bg)

/-! ## Document model (§3 of the format: the JSON dict shapes)

A background value in the dicts is either a semantic name (string) or a
raw numeric code (`isinstance(bg, str)` dispatch in the encoder, and the
decoder's `BACKGROUND_TYPES.get(bg, bg)` fallback). -/

inductive BgVal where
  | name : String → BgVal
  | code : Nat → BgVal
  deriving DecidableEq

structure BoardObject where
  type : String := "tank"
  type_id : Nat := 0
  hidden : Bool := false
  locked : Bool := false
  x : ℚ := 0
  y : ℚ := 0
  background : BgVal := .code 0
  size : Nat := 100
  color_r : Nat := 255
  color_g : Nat := 255
  color_b : Nat := 255
  transparency : Nat := 0
  arc_angle : Nat := 0
  donut_radius : Nat := 0
  knockback_horizontal : Nat := 0
  deriving DecidableEq

structure Document where
  version : Nat := 2
  name : List Nat := []
  objects : List BoardObject := []
  board_background : BgVal := .code 1
  deriving DecidableEq

/-! ## UTF-8 (model of Python `str.encode('utf-8')` and
`bytes.decode('utf-8', errors='replace')`) -/

def utf8EncodeChar (c : Nat) : List Nat :=
  if c < 128 then [c]
  else if c < 2048 then [192 + c / 64, 128 + c % 64]
  else if c < 65536 then [224 + c / 4096, 128 + c / 64 % 64, 128 + c % 64]
  else [240 + c / 262144, 128 + c / 4096 % 64, 128 + c / 64 % 64, 128 + c % 64]

def utf8Encode (s : List Nat) : List Nat :=
  (s.map utf8EncodeChar).flatten

/-- Is `b` a UTF-8 continuation byte in the range Python accepts after the
given lead byte? (`lo`/`hi` encode the restricted ranges of E0/ED/F0/F4.) -/
def utf8Cont (lo hi b : Nat) : Bool := lo ≤ b && b ≤ hi

/-- Decoder with `errors='replace'`: malformed sequences produce U+FFFD
(65533), consuming the invalid lead byte (or the valid prefix of a longer
sequence), as CPython does. -/
def utf8DecodeReplace : List Nat → List Nat
  | [] => []
  | b :: rest =>
    if b < 128 then b :: utf8DecodeReplace rest
    else if 194 ≤ b ∧ b ≤ 223 then
      match rest with
      | b1 :: r2 =>
        if utf8Cont 128 191 b1 then
          ((b - 192) * 64 + (b1 - 128)) :: utf8DecodeReplace r2
        else 65533 :: utf8DecodeReplace (b1 :: r2)
      | [] => [65533]
    else if 224 ≤ b ∧ b ≤ 239 then
      match rest with
      | b1 :: r2 =>
        let lo := if b = 224 then 160 else 128
        let hi := if b = 237 then 159 else 191
        if utf8Cont lo hi b1 then
          match r2 with
          | b2 :: r3 =>
            if utf8Cont 128 191 b2 then
              ((b - 224) * 4096 + (b1 - 128) * 64 + (b2 - 128)) ::
                utf8DecodeReplace r3
            else 65533 :: utf8DecodeReplace (b2 :: r3)
          | [] => [65533]
        else 65533 :: utf8DecodeReplace (b1 :: r2)
      | [] => [65533]
    else if 240 ≤ b ∧ b ≤ 244 then
      match rest with
      | b1 :: r2 =>
        let lo := if b = 240 then 144 else 128
        let hi := if b = 244 then 143 else 191
        if utf8Cont lo hi b1 then
          match r2 with
          | b2 :: r3 =>
            if utf8Cont 128 191 b2 then
              match r3 with
              | b3 :: r4 =>
                if utf8Cont 128 191 b3 then
                  ((b - 240) * 262144 + (b1 - 128) * 4096 + (b2 - 128) * 64 +
                    (b3 - 128)) :: utf8DecodeReplace r4
                else 65533 :: utf8DecodeReplace (b3 :: r4)
              | [] => [65533]
            else 65533 :: utf8DecodeReplace (b2 :: r3)
          | [] => [65533]
        else 65533 :: utf8DecodeReplace (b1 :: r2)
      | [] => [65533]
    else 65533 :: utf8DecodeReplace rest
termination_by l => l.length
decreasing_by all_goals simp <;> omega

/-- `bytes.rstrip(b'\x00')`. -/
def rstripNul (l : List Nat) : List Nat :=
  (l.reverse.dropWhile (fun b => b == 0)).reverse

/-- `str.strip('\x00')` on a code-point list. -/
def stripNul (l : List Nat) : List Nat :=
  ((l.dropWhile (fun b => b == 0)).reverse.dropWhile (fun b => b == 0)).reverse

/-! ## Little-endian field helpers (`struct` formats on byte lists) -/

/-- `struct.pack('<H', v)`: `none` models `struct.error`. -/
def u16Bytes (v : Nat) : Option (List Nat) :=
  if v < 65536 then some [v % 256, v / 256] else none

/-- `struct.pack('<B', v)`. -/
def u8Bytes (v : Nat) : Option (List Nat) :=
  if v < 256 then some [v] else none

/-- `struct.pack('<h', x)` (signed 16-bit, two's complement). -/
def i16Bytes (x : ℤ) : Option (List Nat) :=
  if -32768 ≤ x ∧ x ≤ 32767 then
    some [(x % 65536).toNat % 256, (x % 65536).toNat / 256]
  else none

/-- `struct.pack_into('<I', l, i, v)` (callers check `v < 2^32`). -/
def writeU32 (l : List Nat) (i v : Nat) : List Nat :=
  ((((l.set i (v % 256)).set (i + 1) (v / 256 % 256)).set
      (i + 2) (v / 65536 % 256)).set (i + 3) (v / 16777216 % 256))

/-- `struct.unpack_from('<H', data, pos)[0]` read off the suffix
`data[pos:]` (all reads in the parser move forward, so the loops are
modelled on suffixes; the guards are translated along `len(data) - pos =
suffix.length`). -/
def readU16 (l : List Nat) : Nat := l.getD 0 0 + 256 * l.getD 1 0

/-- `struct.unpack_from('<h', data, pos)[0]` off the suffix. -/
def readI16 (l : List Nat) : ℤ :=
  let u := readU16 l
  if u < 32768 then (u : ℤ) else (u : ℤ) - 65536

/-- `struct.unpack_from('<I', data, i)[0]` (absolute offset). -/
def readU32 (l : List Nat) (i : Nat) : Nat :=
  l.getD i 0 + 256 * l.getD (i + 1) 0 + 65536 * l.getD (i + 2) 0 +
    16777216 * l.getD (i + 3) 0

/-! ## `build_binary` (stgy_encoder.py lines 158-302)

Python `int(x * 10)` truncates toward zero; on the rational model this is
`ratTrunc`. -/

def ratTrunc (q : ℚ) : ℤ := Int.tdiv q.num (q.den : ℤ)

/-- `obj.get("type_id") or ICON_TYPE_IDS.get(type_name, 47)`: Python `or`
falls through on `None` and on `0`, so a missing/zero `type_id` uses the
name lookup. -/
def effTypeId (o : BoardObject) : Nat :=
  if o.type_id = 0 then iconNameToId o.type else o.type_id

/-- Per-object background `bg` with the `isinstance(bg, str)` dispatch. -/
def objBgCode (bg : BgVal) : Nat :=
  match bg with
  | .name s => (lookupStr encObjBgMap s).getD 0
  | .code n => n

/-- `str.lower()` modelled on the ASCII range (all table keys are ASCII;
Lean's `String.toLower` does not reduce in the kernel). -/
def lowerChar (c : Char) : Char :=
  if 65 ≤ c.toNat ∧ c.toNat ≤ 90 then Char.ofNat (c.toNat + 32) else c

def strLower (s : String) : String := String.mk (s.data.map lowerChar)

/-- Footer `board_bg` with `bg_map.get(board_bg.lower(), 1)`. -/
def boardBgCode (bg : BgVal) : Nat :=
  match bg with
  | .name s => (lookupStr encFooterBgMap (strLower s)).getD 1
  | .code n => n

/-- Flags for the single-object tag-4 section: default 1 (visible,
unlocked), 0 when hidden, 9 when locked. -/
def objFlags (o : BoardObject) : Nat :=
  if o.hidden then 0 else if o.locked then 9 else 1

/-- `obj.get("donut_radius", obj.get("knockback_horizontal", 0))`
(missing keys modelled as 0, see the header comment). -/
def effRadius (o : BoardObject) : Nat :=
  if o.donut_radius ≠ 0 then o.donut_radius else o.knockback_horizontal

/-- The 28 header bytes before the name slot: version 2, the two
back-patched placeholder fields, padding, the constant object-count
header slot `1` at 0x18 and the name length `8` at 0x1A. -/
def headerPrefix : List Nat :=
  [2, 0, 0, 0] ++ [0, 0, 0, 0] ++ List.replicate 10 0 ++ [0, 0, 0, 0] ++
    [0, 0] ++ [1, 0] ++ [8, 0]

/-- `name.encode('utf-8')[:8].ljust(8, b'\x00')` applied to
`data.get("name", "board")[:7]`. -/
def nameField (name : List Nat) : List Nat :=
  let nb := (utf8Encode (name.take 7)).take 8
  nb ++ List.replicate (8 - nb.length) 0

def build_binary (d : Document) : Option (List Nat) := do
  let objects := d.objects
  let n := objects.length
  let header := headerPrefix ++ nameField d.name
  let iconB ← objects.mapM
    (fun o => (u16Bytes (effTypeId o)).map (fun tb => [2, 0] ++ tb))
  let tag4B ←
    if n = 0 then some []
    else if n = 1 then
      let flags := match objects with
        | o :: _ => objFlags o
        | [] => 1
      some ([4, 0] ++ [1, 0] ++ [1, 0] ++ [flags, 0])
    else do
      let nb ← u16Bytes n
      some ([4, 0] ++ [1, 0] ++ nb ++ (List.replicate n [1, 0]).flatten)
  let secB ←
    if n = 0 then some []
    else do
      let nb ← u16Bytes n
      let posB ← objects.mapM (fun o => do
        let xb ← i16Bytes (ratTrunc (o.x * 10))
        let yb ← i16Bytes (ratTrunc (o.y * 10))
        pure (xb ++ yb))
      let bgB ← objects.mapM (fun o => u16Bytes (objBgCode o.background))
      let szB := objects.map (fun o => o.size % 256)
      let szPad := if n % 2 = 1 then [0] else []
      let colB ← objects.mapM (fun o => do
        let rb ← u8Bytes o.color_r
        let gb ← u8Bytes o.color_g
        let bb ← u8Bytes o.color_b
        let ab ← u8Bytes o.transparency
        pure (rb ++ gb ++ bb ++ ab))
      let arcB ← objects.mapM (fun o => u16Bytes o.arc_angle)
      let donB ← objects.mapM (fun o => u16Bytes (effRadius o))
      pure ([5, 0] ++ [3, 0] ++ nb ++ posB.flatten ++
            [6, 0] ++ [1, 0] ++ nb ++ bgB.flatten ++
            [7, 0] ++ [0, 0] ++ nb ++ szB ++ szPad ++
            [8, 0] ++ [2, 0] ++ nb ++ colB.flatten ++
            [10, 0] ++ [1, 0] ++ nb ++ arcB.flatten ++
            [11, 0] ++ [1, 0] ++ nb ++ donB.flatten ++
            [12, 0] ++ [1, 0] ++ nb ++ (List.replicate n [0, 0]).flatten)
  let footB ← (u16Bytes (boardBgCode d.board_background)).map
    (fun bb => [3, 0] ++ [1, 0] ++ [1, 0] ++ bb)
  let raw := header ++ iconB.flatten ++ tag4B ++ secB ++ footB
  let payload_size := raw.length - 28
  if payload_size < 4294967296 then
    let field_04 := raw.length - 16
    if field_04 < 4294967296 then
      some (writeU32 (writeU32 raw 18 payload_size) 4 field_04)
    else none
  else none

/-! ## `parse_binary` (stgy_decoder.py lines 146-333)

Every read in the parser is at `pos` or a fixed offset beyond it and `pos`
only moves forward, so the `while`-loops are modelled on the suffix
`data[pos:]`; each Python guard `pos + k > len(data)` becomes
`suffix.length < k` (the two agree, including when Python's
`len(data) - c` is negative). -/

/-- Tag-5 element loop: `n × (signed16 x, signed16 y)` scaled by `/10.0`,
stopping early on truncation; returns the pairs read and the remaining
suffix. -/
def readPairs : List Nat → Nat → List (ℚ × ℚ) × List Nat
  | l, 0 => ([], l)
  | l, count + 1 =>
    if l.length < 4 then ([], l)
    else
      let x := (readI16 l : ℚ) / 10
      let y := (readI16 (l.drop 2) : ℚ) / 10
      let r := readPairs (l.drop 4) count
      ((x, y) :: r.1, r.2)

/-- Element loop for the u16 tags (6, 10, 11). -/
def readU16s : List Nat → Nat → List Nat × List Nat
  | l, 0 => ([], l)
  | l, count + 1 =>
    if l.length < 2 then ([], l)
    else
      let r := readU16s (l.drop 2) count
      (readU16 l :: r.1, r.2)

/-- Tag-7 element loop: single bytes. -/
def readBytes : List Nat → Nat → List Nat × List Nat
  | l, 0 => ([], l)
  | [], _ + 1 => ([], [])
  | b :: t, count + 1 =>
    let r := readBytes t count
    (b :: r.1, r.2)

/-- Tag-8 element loop: RGBA quadruples. -/
def readColors : List Nat → Nat → List (Nat × Nat × Nat × Nat) × List Nat
  | l, 0 => ([], l)
  | l, count + 1 =>
    if l.length < 4 then ([], l)
    else
      let r := readColors (l.drop 4) count
      ((l.getD 0 0, l.getD 1 0, l.getD 2 0, l.getD 3 0) :: r.1, r.2)

theorem readPairs_snd_length (c : Nat) (l : List Nat) :
    (readPairs l c).2.length ≤ l.length := by
  induction c generalizing l with
  | zero => simp [readPairs]
  | succ k ih =>
    simp only [readPairs]
    split
    · simp
    · exact le_trans (ih (l.drop 4)) (by simp)

theorem readU16s_snd_length (c : Nat) (l : List Nat) :
    (readU16s l c).2.length ≤ l.length := by
  induction c generalizing l with
  | zero => simp [readU16s]
  | succ k ih =>
    simp only [readU16s]
    split
    · simp
    · exact le_trans (ih (l.drop 2)) (by simp)

theorem readBytes_snd_length (c : Nat) (l : List Nat) :
    (readBytes l c).2.length ≤ l.length := by
  induction c generalizing l with
  | zero => simp [readBytes]
  | succ k ih =>
    match l with
    | [] => simp [readBytes]
    | b :: t => exact le_trans (ih t) (by simp)

theorem readColors_snd_length (c : Nat) (l : List Nat) :
    (readColors l c).2.length ≤ l.length := by
  induction c generalizing l with
  | zero => simp [readColors]
  | succ k ih =>
    simp only [readColors]
    split
    · simp
    · exact le_trans (ih (l.drop 4)) (by simp)

/-- The icon list loop at `0x24`: repeated `(marker=2, iconTypeId)` u16
pairs, stopping when the marker differs from 2 or fewer than five bytes
remain (`while pos < len(data) - 4`). -/
def readIcons (l : List Nat) : List Nat × List Nat :=
  if 4 < l.length then
    if readU16 l = 2 then
      let r := readIcons (l.drop 4)
      (readU16 (l.drop 2) :: r.1, r.2)
    else ([], l)
  else ([], l)
termination_by l.length
decreasing_by simp; omega

/-- Accumulators of the tag loop (`positions`, `backgrounds`, ... lists and
`result["_flags"]` / `result["board_background"]`). -/
structure ParseState where
  positions : List (ℚ × ℚ) := []
  backgrounds : List Nat := []
  sizes : List Nat := []
  colors : List (Nat × Nat × Nat × Nat) := []
  arc_angles : List Nat := []
  donut_radii : List Nat := []
  flagsVal : Option Nat := none
  board_background : Option String := none
  deriving DecidableEq

/-- The `while pos < len(data) - 2` tag loop.  `none` models the
`struct.error` raised by the unguarded reads of the tag-4 branch; every
other branch breaks (returning the state) or skips on truncation. -/
def parseTags (l : List Nat) (st : ParseState) : Option ParseState :=
  if h : 2 < l.length then
    let tag := readU16 l
    if tag = 4 then
      if 6 ≤ l.length then
        let count_val := readU16 (l.drop 4)
        if 1 < count_val then parseTags (l.drop 10) st
        else if 8 ≤ l.length then
          parseTags (l.drop 8) { st with flagsVal := some (readU16 (l.drop 6)) }
        else none
      else none
    else if tag = 5 then
      if l.length < 6 then some st
      else
        let r := readPairs (l.drop 6) (readU16 (l.drop 4))
        parseTags r.2 { st with positions := st.positions ++ r.1 }
    else if tag = 6 then
      if l.length < 6 then some st
      else
        let r := readU16s (l.drop 6) (readU16 (l.drop 4))
        parseTags r.2 { st with backgrounds := st.backgrounds ++ r.1 }
    else if tag = 7 then
      if l.length < 6 then some st
      else
        let count := readU16 (l.drop 4)
        let r := readBytes (l.drop 6) count
        parseTags (r.2.drop (count % 2)) { st with sizes := st.sizes ++ r.1 }
    else if tag = 8 then
      if l.length < 6 then some st
      else
        let r := readColors (l.drop 6) (readU16 (l.drop 4))
        parseTags r.2 { st with colors := st.colors ++ r.1 }
    else if tag = 10 then
      if l.length < 6 then some st
      else
        let r := readU16s (l.drop 6) (readU16 (l.drop 4))
        parseTags r.2 { st with arc_angles := st.arc_angles ++ r.1 }
    else if tag = 11 then
      if l.length < 6 then some st
      else
        let r := readU16s (l.drop 6) (readU16 (l.drop 4))
        parseTags r.2 { st with donut_radii := st.donut_radii ++ r.1 }
    else if tag = 12 then
      if l.length < 6 then some st
      else parseTags (l.drop (6 + readU16 (l.drop 4) * 2)) st
    else if tag = 3 then
      if 8 ≤ l.length then
        some { st with
               board_background := some (footerBgName (readU16 (l.drop 6))) }
      else some st
    else parseTags (l.drop 2) st
  else some st
termination_by l.length
decreasing_by
  all_goals try simp only [List.length_drop]
  all_goals
    first
    | omega
    | (have hr := readPairs_snd_length (readU16 (l.drop 4)) (l.drop 6)
       simp only [List.length_drop] at hr
       omega)
    | (have hr := readU16s_snd_length (readU16 (l.drop 4)) (l.drop 6)
       simp only [List.length_drop] at hr
       omega)
    | (have hr := readBytes_snd_length (readU16 (l.drop 4)) (l.drop 6)
       simp only [List.length_drop] at hr
       omega)
    | (have hr := readColors_snd_length (readU16 (l.drop 4)) (l.drop 6)
       simp only [List.length_drop] at hr
       omega)

/-- Single-object `_flags` interpretation (`flag_val == 0` hidden,
`elif flag_val == 9 or (flag_val & 0x08)` locked). -/
def flagsHidden (fl : Nat) : Bool := fl == 0

def flagsLocked (fl : Nat) : Bool := fl != 0 && (fl == 9 || fl &&& 8 != 0)

def parse_binary (data : List Nat) : Option Document :=
  if data.length < 4 then none
  else
    let version := readU32 data 0
    let nameList := stripNul (utf8DecodeReplace (rstripNul ((data.drop 28).take 8)))
    let ir := readIcons (data.drop 36)
    let icons := ir.1
    let n := icons.length
    match parseTags ir.2 {} with
    | none => none
    | some st =>
      let objects := (List.range n).map (fun i =>
        let icon_id := icons.getD i 0
        ({ type := iconIdToName icon_id
           type_id := icon_id
           x := match st.positions.get? i with
                | some p => p.1
                | none => 0
           y := match st.positions.get? i with
                | some p => p.2
                | none => 0
           size := match st.sizes.get? i with
                   | some s => if 0 < s then s else 100
                   | none => 100
           background := match st.backgrounds.get? i with
                         | some bg =>
                           match lookupName BACKGROUND_TYPES bg with
                           | some s => BgVal.name s
                           | none => BgVal.code bg
                         | none => BgVal.code 0
           color_r := match st.colors.get? i with
                      | some c => c.1
                      | none => 255
           color_g := match st.colors.get? i with
                      | some c => c.2.1
                      | none => 255
           color_b := match st.colors.get? i with
                      | some c => c.2.2.1
                      | none => 255
           transparency := match st.colors.get? i with
                           | some c => if 0 < c.2.2.2 then c.2.2.2 else 0
                           | none => 0
           arc_angle := match st.arc_angles.get? i with
                        | some v => if 0 < v then v else 0
                        | none => 0
           donut_radius := match st.donut_radii.get? i with
                           | some v => if 0 < v then v else 0
                           | none => 0
           hidden := if n = 1 then
                       match st.flagsVal with
                       | some fl => flagsHidden fl
                       | none => false
                     else false
           locked := if n = 1 then
                       match st.flagsVal with
                       | some fl => flagsLocked fl
                       | none => false
                     else false
           knockback_horizontal := 0 } : BoardObject))
      some { version := version
             name := nameList
             objects := objects
             board_background := match st.board_background with
                                 | some s => BgVal.name s
                                 | none => BgVal.code 1 }

/-! ## Orchestration (`encode_stgy`, `decode_stgy`) -/

def encode_stgy (compress : List Nat → List Nat) (d : Document)
    (key : Nat) : Option (List Nat) :=
  (build_binary d).bind (fun b => encode_cipher compress b key)

def decode_stgy (decompress : List Nat → Option (List Nat))
    (stgy_string : List Nat) : Option Document :=
  match decode_cipher decompress stgy_string with
  | .ok data => parse_binary data
  | .error _ => none

/-- Stand-in compression pair for concrete evaluations: the identity
satisfies the zlib contract assumed by the round-trip theorems. -/
def idCompress : List Nat → List Nat := fun x => x

def idDecompress : List Nat → Option (List Nat) := fun x => some x

/-! ## Generic list lemmas for the round-trip proofs -/

theorem getD_append_left {l₁ l₂ : List Nat} {i : Nat} (h : i < l₁.length) :
    (l₁ ++ l₂).getD i 0 = l₁.getD i 0 := by
  simp [List.getD, List.getElem?_append_left h]

theorem getD_append_right {l₁ l₂ : List Nat} {i : Nat} (h : l₁.length ≤ i) :
    (l₁ ++ l₂).getD i 0 = l₂.getD (i - l₁.length) 0 := by
  simp [List.getD, List.getElem?_append_right h]

theorem drop_append_len {l₁ l₂ : List Nat} {n : Nat} (h : l₁.length = n) :
    (l₁ ++ l₂).drop n = l₂ := by
  subst h; exact List.drop_left l₁ l₂

/-! ## mapIdx lemmas -/

theorem mapIdx_map (f : Nat → Nat → Nat) (h : Nat → Nat) (l : List Nat) :
    mapIdx f (l.map h) = mapIdx (fun i x => f i (h x)) l := by
  induction l generalizing f with
  | nil => rfl
  | cons a t ih => simp [mapIdx, ih]

theorem map_mapIdx (f : Nat → Nat → Nat) (h : Nat → Nat) (l : List Nat) :
    (mapIdx f l).map h = mapIdx (fun i x => h (f i x)) l := by
  induction l generalizing f with
  | nil => rfl
  | cons a t ih => simp [mapIdx, ih]

theorem mapIdx_mapIdx (f g : Nat → Nat → Nat) (l : List Nat) :
    mapIdx g (mapIdx f l) = mapIdx (fun i x => g i (f i x)) l := by
  induction l generalizing f g with
  | nil => rfl
  | cons a t ih => simp [mapIdx, ih]

theorem mapIdx_eq_self (f : Nat → Nat → Nat) (l : List Nat)
    (H : ∀ i x, x ∈ l → f i x = x) : mapIdx f l = l := by
  induction l generalizing f with
  | nil => rfl
  | cons a t ih =>
    simp only [mapIdx, H 0 a (by simp)]
    rw [ih (fun i x => f (i + 1) x) (fun i x hx => H (i + 1) x (by simp [hx]))]

/-! ## Base64 lemmas -/

theorem b64Vals_lt (l : List Nat) (hl : ∀ b ∈ l, b < 256) :
    ∀ v ∈ b64ValsOfBytes l, v < 64 := by
  induction l using b64ValsOfBytes.induct with
  | case1 => simp [b64ValsOfBytes]
  | case2 a =>
    have ha := hl a (by simp)
    simp only [b64ValsOfBytes]
    intro v hv
    simp only [List.mem_cons, List.not_mem_nil, or_false] at hv
    rcases hv with h | h <;> subst h <;> omega
  | case3 a b =>
    have ha := hl a (by simp)
    have hb := hl b (by simp)
    simp only [b64ValsOfBytes]
    intro v hv
    simp only [List.mem_cons, List.not_mem_nil, or_false] at hv
    rcases hv with h | h | h <;> subst h <;> omega
  | case4 a b c rest ih =>
    have ha := hl a (by simp)
    have hb := hl b (by simp)
    have hc := hl c (by simp)
    simp only [b64ValsOfBytes]
    intro v hv
    simp only [List.mem_cons] at hv
    rcases hv with h | h | h | h | h
    · omega
    · omega
    · omega
    · omega
    · exact ih (fun x hx => hl x (by simp [hx])) v h

theorem b64_roundtrip (l : List Nat) (hl : ∀ b ∈ l, b < 256) :
    b64BytesOfVals (b64ValsOfBytes l) = some l := by
  induction l using b64ValsOfBytes.induct with
  | case1 => rfl
  | case2 a =>
    have ha := hl a (by simp)
    simp only [b64ValsOfBytes, b64BytesOfVals, Option.some.injEq, List.cons.injEq,
      and_true]
    omega
  | case3 a b =>
    have ha := hl a (by simp)
    have hb := hl b (by simp)
    simp only [b64ValsOfBytes, b64BytesOfVals, Option.some.injEq, List.cons.injEq,
      and_true]
    constructor <;> omega
  | case4 a b c rest ih =>
    have ha := hl a (by simp)
    have hb := hl b (by simp)
    have hc := hl c (by simp)
    have ih' := ih (fun x hx => hl x (by simp [hx]))
    simp only [b64ValsOfBytes, b64BytesOfVals, ih', Option.map_some',
      Option.some.injEq, List.cons.injEq, and_true]
    omega

/-! ## Finite table facts (checked by evaluation) -/

theorem ctb_b64c : ∀ v : Nat, v < 64 →
    char_to_base64_value (base64_value_to_char v) = v := by decide

theorem inverse_forward : ∀ v : Nat, v < 64 →
    (lookupNat INVERSE_DAT_1420cf4a0
      ((lookupNat FORWARD_DAT (base64_value_to_char v)).getD 65)).getD 65 =
      base64_value_to_char v := by decide

theorem key_reverse_lt : ∀ k : Nat, k < 64 →
    (KEY_REVERSE (base64_value_to_char k)).getD 86 < 123 := by decide

theorem dat_key_reverse : ∀ k : Nat, k < 64 →
    DAT_1420cf520.getD ((KEY_REVERSE (base64_value_to_char k)).getD 86) 0 =
      base64_value_to_char k := by decide

theorem cipher_arith (v i k : Nat) (hv : v < 64) :
    (((((v + i + k) % 64 : Nat) : Int) - (i : Int) - (k : Int)) % 64).toNat
      = v := by omega

/-! ## Cipher round trip -/

theorem cipher_stages_roundtrip (compress : List Nat → List Nat)
    (b : List Nat) (key : Nat) (hk : key < 64) (hlen : b.length < 65536)
    (hcomp : ∀ x ∈ compress b, x < 256) :
    ∃ s, encode_cipher compress b key = some s ∧
      decode_cipher_stages s = .ok (compress b) := by
  have henc : encode_cipher compress b key =
      some (stgyPrefix ++
        ((KEY_REVERSE (base64_value_to_char key)).getD 86) ::
          mapIdx
            (fun i c =>
              (lookupNat FORWARD_DAT
                (base64_value_to_char
                  ((char_to_base64_value c + i + key) % 64))).getD 65)
            ((b64ValsOfBytes
               (([(crc32 ([b.length % 256, b.length / 256] ++ compress b) %
                     4294967296) % 256,
                  crc32 ([b.length % 256, b.length / 256] ++ compress b) %
                     4294967296 / 256 % 256,
                  crc32 ([b.length % 256, b.length / 256] ++ compress b) %
                     4294967296 / 65536 % 256,
                  crc32 ([b.length % 256, b.length / 256] ++ compress b) %
                     4294967296 / 16777216 % 256] ++
                 [b.length % 256, b.length / 256]) ++
                compress b)).map base64_value_to_char) ++ [93]) := by
    simp only [encode_cipher, if_pos hlen]
  refine ⟨_, henc, ?_⟩
  set ck := crc32 ([b.length % 256, b.length / 256] ++ compress b) %
      4294967296 with hck
  set hdr : List Nat :=
    [ck % 256, ck / 256 % 256, ck / 65536 % 256, ck / 16777216 % 256] ++
      [b.length % 256, b.length / 256] with hhdr
  set full : List Nat := hdr ++ compress b with hfull
  have hfull256 : ∀ x ∈ full, x < 256 := by
    intro x hx
    rw [hfull, hhdr] at hx
    simp only [List.cons_append, List.nil_append, List.mem_cons,
      List.mem_append] at hx
    rcases hx with h | h | h | h | h | h | h
    · omega
    · omega
    · omega
    · omega
    · omega
    · omega
    · exact hcomp x (by simpa using h)
  set vals := b64ValsOfBytes full with hvals
  have hv64 : ∀ v ∈ vals, v < 64 := b64Vals_lt full hfull256
  set ks := (KEY_REVERSE (base64_value_to_char key)).getD 86 with hks
  -- the string handed to the decoder, after the blind [7:-1] slice
  have hslice :
      ((stgyPrefix ++ ks ::
          mapIdx
            (fun i c =>
              (lookupNat FORWARD_DAT
                (base64_value_to_char
                  ((char_to_base64_value c + i + key) % 64))).getD 65)
            (vals.map base64_value_to_char) ++ [93]).drop 7).dropLast =
        ks :: mapIdx
            (fun i c =>
              (lookupNat FORWARD_DAT
                (base64_value_to_char
                  ((char_to_base64_value c + i + key) % 64))).getD 65)
            (vals.map base64_value_to_char) := by
    rw [show (7 : Nat) = stgyPrefix.length from rfl, List.append_assoc,
      List.drop_left, List.dropLast_concat]
  simp only [decode_cipher_stages, hslice]
  rw [if_neg (by have := key_reverse_lt key hk; omega)]
  have hkey : char_to_base64_value (DAT_1420cf520.getD ks 0) = key := by
    rw [hks, dat_key_reverse key hk, ctb_b64c key hk]
  rw [hkey]
  -- fuse the three traversals and collapse them pointwise
  rw [mapIdx_map, mapIdx_mapIdx, map_mapIdx]
  rw [mapIdx_eq_self _ vals (by
    intro i v hv
    have hv' := hv64 v hv
    rw [ctb_b64c v hv']
    rw [inverse_forward ((v + i + key) % 64) (Nat.mod_lt _ (by omega))]
    rw [ctb_b64c ((v + i + key) % 64) (Nat.mod_lt _ (by omega))]
    rw [cipher_arith v i key hv']
    exact ctb_b64c v hv')]
  rw [hvals, b64_roundtrip full hfull256]
  have hdrop : full.drop 6 = compress b := by
    rw [hfull]
    exact drop_append_len (by rw [hhdr]; rfl)
  show Except.ok (full.drop 6) = Except.ok (compress b)
  rw [hdrop]

/-- Full (cipher ∘ container) round trip: with a compression pair
satisfying the zlib contract, `decode_cipher` recovers the binary payload
`encode_cipher` was given. -/
theorem cipher_roundtrip (compress : List Nat → List Nat)
    (decompress : List Nat → Option (List Nat)) (b : List Nat) (key : Nat)
    (hk : key < 64) (hlen : b.length < 65536)
    (hcomp : ∀ x ∈ compress b, x < 256)
    (hcd : decompress (compress b) = some b) :
    ∃ s, encode_cipher compress b key = some s ∧
      decode_cipher decompress s = .ok b := by
  obtain ⟨s, hs, hstages⟩ :=
    cipher_stages_roundtrip compress b key hk hlen hcomp
  exact ⟨s, hs, by simp only [decode_cipher, hstages, hcd]⟩

/-! ## More list/byte lemmas -/

theorem drop_set_of_lt {l : List Nat} {m n : Nat} {a : Nat} (h : m < n) :
    (l.set m a).drop n = l.drop n := by
  rw [List.drop_set, if_pos h]

theorem getD_set_ne {l : List Nat} {i j : Nat} (h : i ≠ j) (v : Nat) :
    (l.set i v).getD j 0 = l.getD j 0 := by
  simp [List.getD, List.getElem?_set_ne h]

theorem mapM_eq_some {α β : Type} (f : α → Option β) (g : α → β)
    (l : List α) (H : ∀ o ∈ l, f o = some (g o)) :
    l.mapM f = some (l.map g) := by
  induction l with
  | nil => rfl
  | cons a t ih =>
    rw [List.mapM_cons, H a (by simp), ih (fun o ho => H o (by simp [ho]))]
    rfl

theorem flatten_length_const {α : Type} (f : α → List Nat) (k : Nat)
    (l : List α) (H : ∀ x ∈ l, (f x).length = k) :
    ((l.map f).flatten).length = k * l.length := by
  induction l with
  | nil => simp
  | cons a t ih =>
    simp only [List.map_cons, List.flatten_cons, List.length_append,
      H a (by simp), ih (fun x hx => H x (by simp [hx])), List.length_cons]
    ring

theorem length_writeU32 (l : List Nat) (i v : Nat) :
    (writeU32 l i v).length = l.length := by
  simp [writeU32]

theorem drop_writeU32_of_lt {l : List Nat} {i n : Nat} (h : i + 3 < n) (v : Nat) :
    (writeU32 l i v).drop n = l.drop n := by
  simp only [writeU32]
  rw [drop_set_of_lt (by omega), drop_set_of_lt (by omega),
    drop_set_of_lt (by omega), drop_set_of_lt (by omega)]

theorem getD_writeU32_ne {l : List Nat} {i j : Nat}
    (h : j < i ∨ i + 3 < j) (v : Nat) :
    (writeU32 l i v).getD j 0 = l.getD j 0 := by
  simp only [writeU32]
  rw [getD_set_ne (by omega), getD_set_ne (by omega),
    getD_set_ne (by omega), getD_set_ne (by omega)]

theorem getD_set_self {l : List Nat} {i : Nat} (h : i < l.length) (v : Nat) :
    (l.set i v).getD i 0 = v := by
  simp [List.getD, List.getElem?_set_self h]

/-- Reading back a `writeU32` field. -/
theorem readU32_writeU32 {l : List Nat} {i v : Nat} (hi : i + 4 ≤ l.length)
    (hv : v < 4294967296) : readU32 (writeU32 l i v) i = v := by
  have h0 : (writeU32 l i v).getD i 0 = v % 256 := by
    simp only [writeU32]
    rw [getD_set_ne (by omega), getD_set_ne (by omega), getD_set_ne (by omega)]
    exact getD_set_self (by omega) _
  have h1 : (writeU32 l i v).getD (i + 1) 0 = v / 256 % 256 := by
    simp only [writeU32]
    rw [getD_set_ne (by omega), getD_set_ne (by omega)]
    exact getD_set_self (by simp; omega) _
  have h2 : (writeU32 l i v).getD (i + 2) 0 = v / 65536 % 256 := by
    simp only [writeU32]
    rw [getD_set_ne (by omega)]
    exact getD_set_self (by simp; omega) _
  have h3 : (writeU32 l i v).getD (i + 3) 0 = v / 16777216 % 256 := by
    simp only [writeU32]
    exact getD_set_self (by simp; omega) _
  simp only [readU32, h0, h1, h2, h3]
  omega

/-! ## Exact-consumption lemmas for the section readers -/

/-- Value of a little-endian signed 16-bit field with bytes `a`, `b`. -/
def val16 (a b : Nat) : ℤ :=
  if a + 256 * b < 32768 then (a + 256 * b : ℤ)
  else (a + 256 * b : ℤ) - 65536

theorem readU16_cons (a b : Nat) (l : List Nat) :
    readU16 (a :: b :: l) = a + 256 * b := rfl

theorem readI16_cons (a b : Nat) (l : List Nat) :
    readI16 (a :: b :: l) = val16 a b := rfl

def quadBytes (q : Nat × Nat × Nat × Nat) : List Nat :=
  [q.1, q.2.1, q.2.2.1, q.2.2.2]

def pairBytes (p : Nat × Nat) : List Nat := [p.1, p.2]

theorem readPairs_exact (ps : List (Nat × Nat × Nat × Nat)) (rest : List Nat) :
    readPairs ((ps.map quadBytes).flatten ++ rest) ps.length =
      (ps.map (fun q => ((val16 q.1 q.2.1 : ℚ) / 10,
        (val16 q.2.2.1 q.2.2.2 : ℚ) / 10)), rest) := by
  induction ps with
  | nil => simp [readPairs]
  | cons q t ih =>
    simp only [List.map_cons, List.flatten_cons, quadBytes, List.length_cons,
      List.cons_append, List.nil_append]
    rw [readPairs]
    rw [if_neg (by simp)]
    simp only [List.drop_succ_cons, List.drop_zero, readI16_cons, ih]

theorem readU16s_exact (ps : List (Nat × Nat)) (rest : List Nat) :
    readU16s ((ps.map pairBytes).flatten ++ rest) ps.length =
      (ps.map (fun p => p.1 + 256 * p.2), rest) := by
  induction ps with
  | nil => simp [readU16s]
  | cons p t ih =>
    simp only [List.map_cons, List.flatten_cons, pairBytes, List.length_cons,
      List.cons_append, List.nil_append]
    rw [readU16s]
    rw [if_neg (by simp)]
    simp only [List.drop_succ_cons, List.drop_zero, readU16_cons, ih]

theorem readBytes_exact (bs : List Nat) (rest : List Nat) :
    readBytes (bs ++ rest) bs.length = (bs, rest) := by
  induction bs with
  | nil => simp [readBytes]
  | cons b t ih => simp [readBytes, ih]

theorem readColors_exact (qs : List (Nat × Nat × Nat × Nat)) (rest : List Nat) :
    readColors ((qs.map quadBytes).flatten ++ rest) qs.length =
      (qs.map (fun q => (q.1, q.2.1, q.2.2.1, q.2.2.2)), rest) := by
  induction qs with
  | nil => simp [readColors]
  | cons q t ih =>
    simp only [List.map_cons, List.flatten_cons, quadBytes, List.length_cons,
      List.cons_append, List.nil_append]
    rw [readColors]
    rw [if_neg (by simp)]
    simp only [List.drop_succ_cons, List.drop_zero, ih]
    rfl

theorem readIcons_exact (ids : List (Nat × Nat)) (rest : List Nat)
    (hstop : readU16 rest ≠ 2) (hrest : 0 < rest.length) :
    readIcons ((ids.map (fun p => [2, 0, p.1, p.2])).flatten ++ rest) =
      (ids.map (fun p => p.1 + 256 * p.2), rest) := by
  induction ids with
  | nil =>
    simp only [List.map_nil, List.flatten_nil, List.nil_append]
    rw [readIcons]
    by_cases h4 : 4 < rest.length
    · rw [if_pos h4, if_neg hstop]
    · rw [if_neg h4]
  | cons p t ih =>
    simp only [List.map_cons, List.flatten_cons, List.cons_append,
      List.nil_append]
    rw [readIcons]
    rw [if_pos (by simp only [List.length_cons, List.length_append]; omega),
      if_pos (by rw [readU16_cons])]
    simp only [List.drop_succ_cons, List.drop_zero, ih, readU16_cons]

/-! ## Stepping `parseTags` over the sections `build_binary` emits -/

theorem parseTags_stop (l : List Nat) (st : ParseState) (h : l.length ≤ 2) :
    parseTags l st = some st := by
  rw [parseTags, dif_neg (by omega)]

theorem parseTags_skip1 (rest : List Nat) (st : ParseState)
    (h : 0 < rest.length) : parseTags (1 :: 0 :: rest) st = parseTags rest st := by
  rw [parseTags]
  rw [dif_pos (by simp only [List.length_cons]; omega)]
  have htag : readU16 (1 :: 0 :: rest) = 1 := by rw [readU16_cons]
  simp only [htag]
  norm_num

theorem parseTags_ones (k : Nat) (rest : List Nat) (st : ParseState)
    (h : 0 < rest.length) :
    parseTags ((List.replicate k ([1, 0] : List Nat)).flatten ++ rest) st =
      parseTags rest st := by
  induction k with
  | zero => simp
  | succ m ih =>
    simp only [List.replicate_succ, List.flatten_cons, List.cons_append,
      List.nil_append]
    rw [parseTags_skip1 _ _ (by simp [List.length_append]; omega), ih]

theorem parseTags_tag4_single (f : Nat) (rest : List Nat) (st : ParseState) :
    parseTags (4 :: 0 :: 1 :: 0 :: 1 :: 0 :: f :: 0 :: rest) st =
      parseTags rest { st with flagsVal := some f } := by
  rw [parseTags]
  rw [dif_pos (by simp only [List.length_cons]; omega)]
  have htag : readU16 (4 :: 0 :: 1 :: 0 :: 1 :: 0 :: f :: 0 :: rest) = 4 := by
    rw [readU16_cons]
  simp only [htag]
  have hd4 : (4 :: 0 :: 1 :: 0 :: 1 :: 0 :: f :: 0 :: rest).drop 4 =
      1 :: 0 :: f :: 0 :: rest := rfl
  have hd6 : (4 :: 0 :: 1 :: 0 :: 1 :: 0 :: f :: 0 :: rest).drop 6 =
      f :: 0 :: rest := rfl
  have hd8 : (4 :: 0 :: 1 :: 0 :: 1 :: 0 :: f :: 0 :: rest).drop 8 = rest := rfl
  simp only [hd4, hd6, hd8, readU16_cons]
  norm_num

theorem parseTags_tag4_multi (a b : Nat) (k : Nat) (rest : List Nat)
    (st : ParseState) (hab : 1 < a + 256 * b) (hrest : 0 < rest.length) :
    parseTags (4 :: 0 :: 1 :: 0 :: a :: b :: 1 :: 0 :: 1 :: 0 ::
        ((List.replicate k ([1, 0] : List Nat)).flatten ++ rest)) st =
      parseTags rest st := by
  rw [parseTags]
  rw [dif_pos (by simp only [List.length_cons]; omega)]
  have htag : readU16 (4 :: 0 :: 1 :: 0 :: a :: b :: 1 :: 0 :: 1 :: 0 ::
      ((List.replicate k ([1, 0] : List Nat)).flatten ++ rest)) = 4 := by
    rw [readU16_cons]
  simp only [htag]
  have hd4 : (4 :: 0 :: 1 :: 0 :: a :: b :: 1 :: 0 :: 1 :: 0 ::
      ((List.replicate k ([1, 0] : List Nat)).flatten ++ rest)).drop 4 =
      a :: b :: 1 :: 0 :: 1 :: 0 ::
        ((List.replicate k ([1, 0] : List Nat)).flatten ++ rest) := rfl
  have hd10 : (4 :: 0 :: 1 :: 0 :: a :: b :: 1 :: 0 :: 1 :: 0 ::
      ((List.replicate k ([1, 0] : List Nat)).flatten ++ rest)).drop 10 =
      (List.replicate k ([1, 0] : List Nat)).flatten ++ rest := rfl
  simp only [hd4, hd10, readU16_cons, if_true]
  rw [if_pos (by simp only [List.length_cons]; omega)]
  rw [if_pos hab]
  exact parseTags_ones k rest st hrest

theorem parseTags_tag5 (ps : List (Nat × Nat × Nat × Nat)) (rest : List Nat)
    (st : ParseState) :
    parseTags (5 :: 0 :: 3 :: 0 :: ps.length % 256 :: ps.length / 256 ::
        ((ps.map quadBytes).flatten ++ rest)) st =
      parseTags rest { st with positions := (st.positions ++
        ps.map (fun q => ((val16 q.1 q.2.1 : ℚ) / 10,
          (val16 q.2.2.1 q.2.2.2 : ℚ) / 10))) } := by
  rw [parseTags]
  rw [dif_pos (by simp only [List.length_cons]; omega)]
  have htag : readU16 (5 :: 0 :: 3 :: 0 :: ps.length % 256 :: ps.length / 256 ::
      ((ps.map quadBytes).flatten ++ rest)) = 5 := by rw [readU16_cons]
  have hd4 : (5 :: 0 :: 3 :: 0 :: ps.length % 256 :: ps.length / 256 ::
      ((ps.map quadBytes).flatten ++ rest)).drop 4 =
      ps.length % 256 :: ps.length / 256 ::
        ((ps.map quadBytes).flatten ++ rest) := rfl
  have hd6 : (5 :: 0 :: 3 :: 0 :: ps.length % 256 :: ps.length / 256 ::
      ((ps.map quadBytes).flatten ++ rest)).drop 6 =
      (ps.map quadBytes).flatten ++ rest := rfl
  simp only [htag, hd4, hd6, readU16_cons]
  rw [if_neg (by norm_num : ¬(5 : Nat) = 4)]
  simp only [if_true]
  have hcnt : ps.length % 256 + 256 * (ps.length / 256) = ps.length := by omega
  simp only [hcnt, readPairs_exact]
  split
  · rename_i hlt
    simp only [List.length_cons, List.length_append] at hlt
    omega
  · rfl

theorem parseTags_tag6 (ps : List (Nat × Nat)) (rest : List Nat)
    (st : ParseState) :
    parseTags (6 :: 0 :: 1 :: 0 :: ps.length % 256 :: ps.length / 256 ::
        ((ps.map pairBytes).flatten ++ rest)) st =
      parseTags rest { st with backgrounds := (st.backgrounds ++
        ps.map (fun p => p.1 + 256 * p.2)) } := by
  rw [parseTags]
  rw [dif_pos (by simp only [List.length_cons]; omega)]
  have htag : readU16 (6 :: 0 :: 1 :: 0 :: ps.length % 256 :: ps.length / 256 ::
      ((ps.map pairBytes).flatten ++ rest)) = 6 := by rw [readU16_cons]
  have hd4 : (6 :: 0 :: 1 :: 0 :: ps.length % 256 :: ps.length / 256 ::
      ((ps.map pairBytes).flatten ++ rest)).drop 4 =
      ps.length % 256 :: ps.length / 256 ::
        ((ps.map pairBytes).flatten ++ rest) := rfl
  have hd6 : (6 :: 0 :: 1 :: 0 :: ps.length % 256 :: ps.length / 256 ::
      ((ps.map pairBytes).flatten ++ rest)).drop 6 =
      (ps.map pairBytes).flatten ++ rest := rfl
  simp only [htag, hd4, hd6, readU16_cons]
  rw [if_neg (by norm_num : ¬(6 : Nat) = 4),
    if_neg (by norm_num : ¬(6 : Nat) = 5)]
  simp only [if_true]
  have hcnt : ps.length % 256 + 256 * (ps.length / 256) = ps.length := by omega
  simp only [hcnt, readU16s_exact]
  split
  · rename_i hlt
    simp only [List.length_cons, List.length_append] at hlt
    omega
  · rfl

theorem parseTags_tag7_even (bs : List Nat) (rest : List Nat)
    (st : ParseState) (hpar : bs.length % 2 = 0) :
    parseTags (7 :: 0 :: 0 :: 0 :: bs.length % 256 :: bs.length / 256 ::
        (bs ++ rest)) st =
      parseTags rest { st with sizes := (st.sizes ++ bs) } := by
  rw [parseTags]
  rw [dif_pos (by simp only [List.length_cons]; omega)]
  have htag : readU16 (7 :: 0 :: 0 :: 0 :: bs.length % 256 :: bs.length / 256 ::
      (bs ++ rest)) = 7 := by rw [readU16_cons]
  have hd4 : (7 :: 0 :: 0 :: 0 :: bs.length % 256 :: bs.length / 256 ::
      (bs ++ rest)).drop 4 =
      bs.length % 256 :: bs.length / 256 :: (bs ++ rest) := rfl
  have hd6 : (7 :: 0 :: 0 :: 0 :: bs.length % 256 :: bs.length / 256 ::
      (bs ++ rest)).drop 6 = bs ++ rest := rfl
  simp only [htag, hd4, hd6, readU16_cons]
  rw [if_neg (by norm_num : ¬(7 : Nat) = 4),
    if_neg (by norm_num : ¬(7 : Nat) = 5),
    if_neg (by norm_num : ¬(7 : Nat) = 6)]
  simp only [if_true]
  have hcnt : bs.length % 256 + 256 * (bs.length / 256) = bs.length := by omega
  simp only [hcnt, readBytes_exact, hpar, List.drop_zero]
  split
  · rename_i hlt
    simp only [List.length_cons, List.length_append] at hlt
    omega
  · rfl

theorem parseTags_tag7_odd (bs : List Nat) (rest : List Nat)
    (st : ParseState) (hpar : bs.length % 2 = 1) :
    parseTags (7 :: 0 :: 0 :: 0 :: bs.length % 256 :: bs.length / 256 ::
        (bs ++ 0 :: rest)) st =
      parseTags rest { st with sizes := (st.sizes ++ bs) } := by
  rw [parseTags]
  rw [dif_pos (by simp only [List.length_cons]; omega)]
  have htag : readU16 (7 :: 0 :: 0 :: 0 :: bs.length % 256 :: bs.length / 256 ::
      (bs ++ 0 :: rest)) = 7 := by rw [readU16_cons]
  have hd4 : (7 :: 0 :: 0 :: 0 :: bs.length % 256 :: bs.length / 256 ::
      (bs ++ 0 :: rest)).drop 4 =
      bs.length % 256 :: bs.length / 256 :: (bs ++ 0 :: rest) := rfl
  have hd6 : (7 :: 0 :: 0 :: 0 :: bs.length % 256 :: bs.length / 256 ::
      (bs ++ 0 :: rest)).drop 6 = bs ++ 0 :: rest := rfl
  simp only [htag, hd4, hd6, readU16_cons]
  rw [if_neg (by norm_num : ¬(7 : Nat) = 4),
    if_neg (by norm_num : ¬(7 : Nat) = 5),
    if_neg (by norm_num : ¬(7 : Nat) = 6)]
  simp only [if_true]
  have hcnt : bs.length % 256 + 256 * (bs.length / 256) = bs.length := by omega
  simp only [hcnt, readBytes_exact, hpar, List.drop_succ_cons, List.drop_zero]
  split
  · rename_i hlt
    simp only [List.length_cons, List.length_append] at hlt
    omega
  · rfl

theorem parseTags_tag8 (qs : List (Nat × Nat × Nat × Nat)) (rest : List Nat)
    (st : ParseState) :
    parseTags (8 :: 0 :: 2 :: 0 :: qs.length % 256 :: qs.length / 256 ::
        ((qs.map quadBytes).flatten ++ rest)) st =
      parseTags rest { st with colors := (st.colors ++
        qs.map (fun q => (q.1, q.2.1, q.2.2.1, q.2.2.2))) } := by
  rw [parseTags]
  rw [dif_pos (by simp only [List.length_cons]; omega)]
  have htag : readU16 (8 :: 0 :: 2 :: 0 :: qs.length % 256 :: qs.length / 256 ::
      ((qs.map quadBytes).flatten ++ rest)) = 8 := by rw [readU16_cons]
  have hd4 : (8 :: 0 :: 2 :: 0 :: qs.length % 256 :: qs.length / 256 ::
      ((qs.map quadBytes).flatten ++ rest)).drop 4 =
      qs.length % 256 :: qs.length / 256 ::
        ((qs.map quadBytes).flatten ++ rest) := rfl
  have hd6 : (8 :: 0 :: 2 :: 0 :: qs.length % 256 :: qs.length / 256 ::
      ((qs.map quadBytes).flatten ++ rest)).drop 6 =
      (qs.map quadBytes).flatten ++ rest := rfl
  simp only [htag, hd4, hd6, readU16_cons]
  rw [if_neg (by norm_num : ¬(8 : Nat) = 4),
    if_neg (by norm_num : ¬(8 : Nat) = 5),
    if_neg (by norm_num : ¬(8 : Nat) = 6),
    if_neg (by norm_num : ¬(8 : Nat) = 7)]
  simp only [if_true]
  have hcnt : qs.length % 256 + 256 * (qs.length / 256) = qs.length := by omega
  simp only [hcnt, readColors_exact]
  split
  · rename_i hlt
    simp only [List.length_cons, List.length_append] at hlt
    omega
  · rfl

theorem parseTags_tag10 (ps : List (Nat × Nat)) (rest : List Nat)
    (st : ParseState) :
    parseTags (10 :: 0 :: 1 :: 0 :: ps.length % 256 :: ps.length / 256 ::
        ((ps.map pairBytes).flatten ++ rest)) st =
      parseTags rest { st with arc_angles := (st.arc_angles ++
        ps.map (fun p => p.1 + 256 * p.2)) } := by
  rw [parseTags]
  rw [dif_pos (by simp only [List.length_cons]; omega)]
  have htag : readU16 (10 :: 0 :: 1 :: 0 :: ps.length % 256 :: ps.length / 256 ::
      ((ps.map pairBytes).flatten ++ rest)) = 10 := by rw [readU16_cons]
  have hd4 : (10 :: 0 :: 1 :: 0 :: ps.length % 256 :: ps.length / 256 ::
      ((ps.map pairBytes).flatten ++ rest)).drop 4 =
      ps.length % 256 :: ps.length / 256 ::
        ((ps.map pairBytes).flatten ++ rest) := rfl
  have hd6 : (10 :: 0 :: 1 :: 0 :: ps.length % 256 :: ps.length / 256 ::
      ((ps.map pairBytes).flatten ++ rest)).drop 6 =
      (ps.map pairBytes).flatten ++ rest := rfl
  simp only [htag, hd4, hd6, readU16_cons]
  rw [if_neg (by norm_num : ¬(10 : Nat) = 4),
    if_neg (by norm_num : ¬(10 : Nat) = 5),
    if_neg (by norm_num : ¬(10 : Nat) = 6),
    if_neg (by norm_num : ¬(10 : Nat) = 7),
    if_neg (by norm_num : ¬(10 : Nat) = 8)]
  simp only [if_true]
  have hcnt : ps.length % 256 + 256 * (ps.length / 256) = ps.length := by omega
  simp only [hcnt, readU16s_exact]
  split
  · rename_i hlt
    simp only [List.length_cons, List.length_append] at hlt
    omega
  · rfl

theorem parseTags_tag11 (ps : List (Nat × Nat)) (rest : List Nat)
    (st : ParseState) :
    parseTags (11 :: 0 :: 1 :: 0 :: ps.length % 256 :: ps.length / 256 ::
        ((ps.map pairBytes).flatten ++ rest)) st =
      parseTags rest { st with donut_radii := (st.donut_radii ++
        ps.map (fun p => p.1 + 256 * p.2)) } := by
  rw [parseTags]
  rw [dif_pos (by simp only [List.length_cons]; omega)]
  have htag : readU16 (11 :: 0 :: 1 :: 0 :: ps.length % 256 :: ps.length / 256 ::
      ((ps.map pairBytes).flatten ++ rest)) = 11 := by rw [readU16_cons]
  have hd4 : (11 :: 0 :: 1 :: 0 :: ps.length % 256 :: ps.length / 256 ::
      ((ps.map pairBytes).flatten ++ rest)).drop 4 =
      ps.length % 256 :: ps.length / 256 ::
        ((ps.map pairBytes).flatten ++ rest) := rfl
  have hd6 : (11 :: 0 :: 1 :: 0 :: ps.length % 256 :: ps.length / 256 ::
      ((ps.map pairBytes).flatten ++ rest)).drop 6 =
      (ps.map pairBytes).flatten ++ rest := rfl
  simp only [htag, hd4, hd6, readU16_cons]
  rw [if_neg (by norm_num : ¬(11 : Nat) = 4),
    if_neg (by norm_num : ¬(11 : Nat) = 5),
    if_neg (by norm_num : ¬(11 : Nat) = 6),
    if_neg (by norm_num : ¬(11 : Nat) = 7),
    if_neg (by norm_num : ¬(11 : Nat) = 8),
    if_neg (by norm_num : ¬(11 : Nat) = 10)]
  simp only [if_true]
  have hcnt : ps.length % 256 + 256 * (ps.length / 256) = ps.length := by omega
  simp only [hcnt, readU16s_exact]
  split
  · rename_i hlt
    simp only [List.length_cons, List.length_append] at hlt
    omega
  · rfl

theorem parseTags_tag12 (k : Nat) (rest : List Nat) (st : ParseState)
    (hk : k < 65536) :
    parseTags (12 :: 0 :: 1 :: 0 :: k % 256 :: k / 256 ::
        ((List.replicate k ([0, 0] : List Nat)).flatten ++ rest)) st =
      parseTags rest st := by
  rw [parseTags]
  rw [dif_pos (by simp only [List.length_cons]; omega)]
  have htag : readU16 (12 :: 0 :: 1 :: 0 :: k % 256 :: k / 256 ::
      ((List.replicate k ([0, 0] : List Nat)).flatten ++ rest)) = 12 := by
    rw [readU16_cons]
  have hd4 : (12 :: 0 :: 1 :: 0 :: k % 256 :: k / 256 ::
      ((List.replicate k ([0, 0] : List Nat)).flatten ++ rest)).drop 4 =
      k % 256 :: k / 256 ::
        ((List.replicate k ([0, 0] : List Nat)).flatten ++ rest) := rfl
  simp only [htag, hd4, readU16_cons]
  rw [if_neg (by norm_num : ¬(12 : Nat) = 4),
    if_neg (by norm_num : ¬(12 : Nat) = 5),
    if_neg (by norm_num : ¬(12 : Nat) = 6),
    if_neg (by norm_num : ¬(12 : Nat) = 7),
    if_neg (by norm_num : ¬(12 : Nat) = 8),
    if_neg (by norm_num : ¬(12 : Nat) = 10),
    if_neg (by norm_num : ¬(12 : Nat) = 11)]
  simp only [if_true]
  have hcnt : k % 256 + 256 * (k / 256) = k := by omega
  simp only [hcnt]
  have hlen : ((List.replicate k ([0, 0] : List Nat)).flatten).length = 2 * k := by
    simp only [List.length_flatten, List.map_replicate, List.length_cons,
      List.length_nil, List.sum_replicate, smul_eq_mul]
    omega
  have hdrop : (12 :: 0 :: 1 :: 0 :: k % 256 :: k / 256 ::
      ((List.replicate k ([0, 0] : List Nat)).flatten ++ rest)).drop
        (6 + k * 2) =
      ((List.replicate k ([0, 0] : List Nat)).flatten ++ rest).drop (k * 2) := by
    have h6 : 6 + k * 2 = k * 2 + 1 + 1 + 1 + 1 + 1 + 1 := by omega
    rw [h6]
    rfl
  split
  · rename_i hlt
    simp only [List.length_cons, List.length_append] at hlt
    omega
  · rw [hdrop]
    rw [List.drop_append_of_le_length (by omega)]
    rw [List.drop_of_length_le (by omega), List.nil_append]

theorem parseTags_footer (a b : Nat) (st : ParseState) :
    parseTags [3, 0, 1, 0, 1, 0, a, b] st =
      some { st with board_background := some (footerBgName (a + 256 * b)) } := by
  rw [parseTags]
  rw [dif_pos (by simp only [List.length_cons]; omega)]
  have htag : readU16 [3, 0, 1, 0, 1, 0, a, b] = 3 := by rw [readU16_cons]
  have hd6 : ([3, 0, 1, 0, 1, 0, a, b] : List Nat).drop 6 = [a, b] := rfl
  simp only [htag, hd6, readU16_cons]
  rw [if_neg (by norm_num : ¬(3 : Nat) = 4),
    if_neg (by norm_num : ¬(3 : Nat) = 5),
    if_neg (by norm_num : ¬(3 : Nat) = 6),
    if_neg (by norm_num : ¬(3 : Nat) = 7),
    if_neg (by norm_num : ¬(3 : Nat) = 8),
    if_neg (by norm_num : ¬(3 : Nat) = 10),
    if_neg (by norm_num : ¬(3 : Nat) = 11),
    if_neg (by norm_num : ¬(3 : Nat) = 12)]
  simp only [if_true]
  rw [if_pos (by norm_num : 8 ≤ ([3, 0, 1, 0, 1, 0, a, b] : List Nat).length)]

/-! ## Pure byte forms of the sections `build_binary` emits -/

def i16lo (x : ℤ) : Nat := (x % 65536).toNat % 256

def i16hi (x : ℤ) : Nat := (x % 65536).toNat / 256

theorem i16Bytes_eq {x : ℤ} (h1 : -32768 ≤ x) (h2 : x ≤ 32767) :
    i16Bytes x = some [i16lo x, i16hi x] := by
  rw [i16Bytes, if_pos ⟨h1, h2⟩]
  rfl

theorem val16_i16 (x : ℤ) (h1 : -32768 ≤ x) (h2 : x ≤ 32767) :
    val16 (i16lo x) (i16hi x) = x := by
  simp only [val16, i16lo, i16hi]
  omega

def objQuad (o : BoardObject) : Nat × Nat × Nat × Nat :=
  (i16lo (ratTrunc (o.x * 10)), i16hi (ratTrunc (o.x * 10)),
   i16lo (ratTrunc (o.y * 10)), i16hi (ratTrunc (o.y * 10)))

def iconBytes (o : BoardObject) : List Nat :=
  [2, 0, effTypeId o % 256, effTypeId o / 256]

def bgPair (o : BoardObject) : Nat × Nat :=
  (objBgCode o.background % 256, objBgCode o.background / 256)

def colQuad (o : BoardObject) : Nat × Nat × Nat × Nat :=
  (o.color_r, o.color_g, o.color_b, o.transparency)

def arcPair (o : BoardObject) : Nat × Nat :=
  (o.arc_angle % 256, o.arc_angle / 256)

def donPair (o : BoardObject) : Nat × Nat :=
  (effRadius o % 256, effRadius o / 256)

def secBytes (objects : List BoardObject) : List Nat :=
  5 :: 0 :: 3 :: 0 :: objects.length % 256 :: objects.length / 256 ::
  (((objects.map objQuad).map quadBytes).flatten ++
  (6 :: 0 :: 1 :: 0 :: objects.length % 256 :: objects.length / 256 ::
  (((objects.map bgPair).map pairBytes).flatten ++
  (7 :: 0 :: 0 :: 0 :: objects.length % 256 :: objects.length / 256 ::
  (objects.map (fun o => o.size % 256) ++
    (if objects.length % 2 = 1 then [0] else []) ++
  (8 :: 0 :: 2 :: 0 :: objects.length % 256 :: objects.length / 256 ::
  (((objects.map colQuad).map quadBytes).flatten ++
  (10 :: 0 :: 1 :: 0 :: objects.length % 256 :: objects.length / 256 ::
  (((objects.map arcPair).map pairBytes).flatten ++
  (11 :: 0 :: 1 :: 0 :: objects.length % 256 :: objects.length / 256 ::
  (((objects.map donPair).map pairBytes).flatten ++
  (12 :: 0 :: 1 :: 0 :: objects.length % 256 :: objects.length / 256 ::
  (List.replicate objects.length ([0, 0] : List Nat)).flatten))))))))))))

def tag4Bytes (objects : List BoardObject) : List Nat :=
  match objects with
  | [] => []
  | [o] => [4, 0, 1, 0, 1, 0, objFlags o, 0]
  | _ => 4 :: 0 :: 1 :: 0 :: objects.length % 256 :: objects.length / 256 ::
      (List.replicate objects.length ([1, 0] : List Nat)).flatten

def footerBytes (bb : Nat) : List Nat := [3, 0, 1, 0, 1, 0, bb % 256, bb / 256]

def rawBytes (d : Document) : List Nat :=
  headerPrefix ++ nameField d.name ++
    (((d.objects.map iconBytes).flatten ++
      (tag4Bytes d.objects ++
        ((if d.objects.length = 0 then [] else secBytes d.objects) ++
          footerBytes (boardBgCode d.board_background)))))

/-! ## Per-object domain conditions for the round trip -/

def bgIsValidObjName (bg : BgVal) : Bool :=
  match bg with
  | .name s => (encObjBgMap.map Prod.fst).contains s
  | .code _ => false

def bgIsValidBoardName (bg : BgVal) : Bool :=
  match bg with
  | .name s => (encFooterBgMap.map Prod.fst).contains s
  | .code _ => false

def objOK (o : BoardObject) : Prop :=
  o.type_id ≠ 0 ∧ o.type_id < 65536 ∧ o.type = iconIdToName o.type_id ∧
  -32768 ≤ ratTrunc (o.x * 10) ∧ ratTrunc (o.x * 10) ≤ 32767 ∧
  -32768 ≤ ratTrunc (o.y * 10) ∧ ratTrunc (o.y * 10) ≤ 32767 ∧
  bgIsValidObjName o.background = true ∧
  0 < o.size ∧ o.size < 256 ∧
  o.color_r < 256 ∧ o.color_g < 256 ∧ o.color_b < 256 ∧ o.transparency < 256 ∧
  o.arc_angle < 65536 ∧ o.donut_radius < 65536 ∧ o.knockback_horizontal = 0

instance (o : BoardObject) : Decidable (objOK o) := by
  unfold objOK
  infer_instance

/-- The transform `decode ∘ encode` applies to an in-domain object:
positions are truncated toward zero at 0.1 resolution. -/
def normObj (o : BoardObject) : BoardObject :=
  { o with x := (ratTrunc (o.x * 10) : ℚ) / 10,
           y := (ratTrunc (o.y * 10) : ℚ) / 10 }

/-- The transform `decode ∘ encode` applies to an in-domain document:
version pinned to 2, name truncated to 7 characters, positions truncated
at 0.1 resolution. -/
def roundDoc (d : Document) : Document :=
  { version := 2, name := d.name.take 7, objects := d.objects.map normObj,
    board_background := d.board_background }

/-! ## Finite background-table facts -/

theorem objBg_roundtrip : ∀ s ∈ encObjBgMap.map Prod.fst,
    lookupName BACKGROUND_TYPES (objBgCode (BgVal.name s)) = some s := by
  decide

theorem objBg_lt : ∀ s ∈ encObjBgMap.map Prod.fst,
    objBgCode (BgVal.name s) < 65536 := by decide

theorem footerBg_roundtrip : ∀ s ∈ encFooterBgMap.map Prod.fst,
    footerBgName (boardBgCode (BgVal.name s)) = s := by decide

theorem footerBg_lt : ∀ s ∈ encFooterBgMap.map Prod.fst,
    boardBgCode (BgVal.name s) < 65536 := by decide

/-! ## Name-field lemmas -/

theorem utf8Encode_ascii (s : List Nat) (h : ∀ c ∈ s, c < 128) :
    utf8Encode s = s := by
  induction s with
  | nil => rfl
  | cons c t ih =>
    simp only [utf8Encode, List.map_cons, List.flatten_cons]
    rw [show utf8EncodeChar c = [c] from by
      simp only [utf8EncodeChar, if_pos (h c (by simp))]]
    rw [show ((t.map utf8EncodeChar).flatten) = utf8Encode t from rfl,
      ih (fun c hc => h c (by simp [hc]))]
    rfl

theorem utf8DecodeReplace_ascii (s : List Nat) (h : ∀ c ∈ s, c < 128) :
    utf8DecodeReplace s = s := by
  induction s with
  | nil => rw [utf8DecodeReplace.eq_def]
  | cons c t ih =>
    rw [utf8DecodeReplace.eq_def]
    simp only [if_pos (h c (by simp))]
    rw [show utf8DecodeReplace t = t from ih (fun c hc => h c (by simp [hc]))]

theorem dropWhile_nul_id (l : List Nat) (h : ∀ c ∈ l, c ≠ 0) :
    l.dropWhile (fun b => b == 0) = l := by
  cases l with
  | nil => rfl
  | cons a t =>
    simp only [List.dropWhile_cons]
    rw [if_neg (by simp [h a (by simp)])]

theorem dropWhile_nul_replicate (k : Nat) (l : List Nat) :
    (List.replicate k 0 ++ l).dropWhile (fun b => b == 0) =
      l.dropWhile (fun b => b == 0) := by
  induction k with
  | zero => simp
  | succ j ih => simp [List.replicate_succ, List.dropWhile_cons, ih]

theorem rstripNul_pad (m : List Nat) (k : Nat) (h : ∀ c ∈ m, c ≠ 0) :
    rstripNul (m ++ List.replicate k 0) = m := by
  simp only [rstripNul, List.reverse_append, List.reverse_replicate]
  rw [dropWhile_nul_replicate,
    dropWhile_nul_id _ (fun c hc => h c (by simpa using hc))]
  exact m.reverse_reverse

theorem stripNul_id (m : List Nat) (h : ∀ c ∈ m, c ≠ 0) : stripNul m = m := by
  simp only [stripNul]
  rw [dropWhile_nul_id m h]
  rw [dropWhile_nul_id m.reverse (fun c hc => h c (by simpa using hc))]
  exact m.reverse_reverse

theorem nameField_eq (name : List Nat) (h : ∀ c ∈ name, c < 128) :
    nameField name = name.take 7 ++
      List.replicate (8 - (name.take 7).length) 0 := by
  simp only [nameField]
  rw [utf8Encode_ascii _ (fun c hc => h c (List.mem_of_mem_take hc))]
  rw [List.take_take]
  norm_num

theorem nameField_length (name : List Nat) : (nameField name).length = 8 := by
  simp only [nameField, List.length_append, List.length_replicate]
  have hle : ((utf8Encode (name.take 7)).take 8).length ≤ 8 := by simp
  omega

theorem parse_name (name : List Nat) (h : ∀ c ∈ name, 0 < c ∧ c < 128) :
    stripNul (utf8DecodeReplace (rstripNul (nameField name))) = name.take 7 := by
  have h7 : ∀ c ∈ name.take 7, 0 < c ∧ c < 128 :=
    fun c hc => h c (List.mem_of_mem_take hc)
  rw [nameField_eq name (fun c hc => (h c hc).2)]
  rw [rstripNul_pad _ _ (fun c hc => by have := (h7 c hc).1; omega)]
  rw [utf8DecodeReplace_ascii _ (fun c hc => (h7 c hc).2)]
  exact stripNul_id _ (fun c hc => by have := (h7 c hc).1; omega)

/-! ## `build_binary` in closed form -/

theorem objOK_effTypeId {o : BoardObject} (h : objOK o) :
    effTypeId o = o.type_id ∧ effTypeId o < 65536 := by
  obtain ⟨h1, h2, _⟩ := h
  rw [effTypeId, if_neg h1]
  exact ⟨rfl, h2⟩

theorem objOK_bgCode {o : BoardObject} (h : objOK o) :
    objBgCode o.background < 65536 := by
  obtain ⟨_, _, _, _, _, _, _, hbg, _⟩ := h
  rcases hb : o.background with s | n
  · rw [hb] at hbg
    simp only [bgIsValidObjName, List.contains, List.elem_iff] at hbg
    exact objBg_lt s hbg
  · rw [hb] at hbg
    simp [bgIsValidObjName] at hbg

theorem objOK_effRadius {o : BoardObject} (h : objOK o) :
    effRadius o = o.donut_radius ∧ effRadius o < 65536 := by
  obtain ⟨_, _, _, _, _, _, _, _, _, _, _, _, _, _, _, hdon, hkb⟩ := h
  rw [effRadius]
  by_cases hd : o.donut_radius ≠ 0
  · rw [if_pos hd]
    exact ⟨rfl, hdon⟩
  · rw [if_neg hd]
    push_neg at hd
    rw [hkb, hd]
    exact ⟨rfl, by omega⟩

theorem boardBg_lt {bg : BgVal} (h : bgIsValidBoardName bg = true) :
    boardBgCode bg < 65536 := by
  rcases hb : bg with s | n
  · rw [hb] at h
    simp only [bgIsValidBoardName, List.contains, List.elem_iff] at h
    exact footerBg_lt s h
  · rw [hb] at h
    simp [bgIsValidBoardName] at h

theorem mapM_icons (objects : List BoardObject)
    (hobj : ∀ o ∈ objects, objOK o) :
    objects.mapM
        (fun o => (u16Bytes (effTypeId o)).map (fun tb => [2, 0] ++ tb)) =
      some (objects.map iconBytes) := by
  apply mapM_eq_some
  intro o ho
  rw [u16Bytes, if_pos (objOK_effTypeId (hobj o ho)).2]
  rfl

theorem mapM_pos (objects : List BoardObject)
    (hobj : ∀ o ∈ objects, objOK o) :
    objects.mapM (fun o => do
        let xb ← i16Bytes (ratTrunc (o.x * 10))
        let yb ← i16Bytes (ratTrunc (o.y * 10))
        pure (xb ++ yb)) =
      some (objects.map (fun o => quadBytes (objQuad o))) := by
  apply mapM_eq_some
  intro o ho
  obtain ⟨_, _, _, hx1, hx2, hy1, hy2, _⟩ := hobj o ho
  rw [i16Bytes_eq hx1 hx2, i16Bytes_eq hy1 hy2]
  rfl

theorem mapM_bg (objects : List BoardObject)
    (hobj : ∀ o ∈ objects, objOK o) :
    objects.mapM (fun o => u16Bytes (objBgCode o.background)) =
      some (objects.map (fun o => pairBytes (bgPair o))) := by
  apply mapM_eq_some
  intro o ho
  rw [u16Bytes, if_pos (objOK_bgCode (hobj o ho))]
  rfl

theorem mapM_col (objects : List BoardObject)
    (hobj : ∀ o ∈ objects, objOK o) :
    objects.mapM (fun o => do
        let rb ← u8Bytes o.color_r
        let gb ← u8Bytes o.color_g
        let bb ← u8Bytes o.color_b
        let ab ← u8Bytes o.transparency
        pure (rb ++ gb ++ bb ++ ab)) =
      some (objects.map (fun o => quadBytes (colQuad o))) := by
  apply mapM_eq_some
  intro o ho
  obtain ⟨_, _, _, _, _, _, _, _, _, _, hr, hg, hb, ha, _⟩ := hobj o ho
  rw [u8Bytes, if_pos hr, u8Bytes, if_pos hg, u8Bytes, if_pos hb,
    u8Bytes, if_pos ha]
  rfl

theorem mapM_arc (objects : List BoardObject)
    (hobj : ∀ o ∈ objects, objOK o) :
    objects.mapM (fun o => u16Bytes o.arc_angle) =
      some (objects.map (fun o => pairBytes (arcPair o))) := by
  apply mapM_eq_some
  intro o ho
  obtain ⟨_, _, _, _, _, _, _, _, _, _, _, _, _, _, harc, _⟩ := hobj o ho
  rw [u16Bytes, if_pos harc]
  rfl

theorem mapM_don (objects : List BoardObject)
    (hobj : ∀ o ∈ objects, objOK o) :
    objects.mapM (fun o => u16Bytes (effRadius o)) =
      some (objects.map (fun o => pairBytes (donPair o))) := by
  apply mapM_eq_some
  intro o ho
  rw [u16Bytes, if_pos (objOK_effRadius (hobj o ho)).2]
  rfl

theorem headerPrefix_length : headerPrefix.length = 28 := rfl

theorem flatten_map_map_length {α β : Type} (f : α → β) (g : β → List Nat)
    (k : Nat) (l : List α) (H : ∀ x, (g (f x)).length = k) :
    (((l.map f).map g).flatten).length = k * l.length := by
  rw [flatten_length_const g k (l.map f) (fun x _ => by
    obtain ⟨y, _, rfl⟩ := List.mem_map.mp (by assumption)
    exact H y)]
  simp

theorem tag4Bytes_length_le (objects : List BoardObject) :
    (tag4Bytes objects).length ≤ 8 + 2 * objects.length := by
  match objects with
  | [] => simp [tag4Bytes]
  | [o] => simp [tag4Bytes]
  | o1 :: o2 :: t =>
    simp only [tag4Bytes, List.length_cons]
    have h2 : ((List.replicate (o1 :: o2 :: t).length
        ([1, 0] : List Nat)).flatten).length = 2 * (o1 :: o2 :: t).length := by
      simp only [List.length_flatten, List.map_replicate, List.length_cons,
        List.length_nil, List.sum_replicate, smul_eq_mul]
      omega
    simp only [List.length_cons] at h2
    omega

theorem secBytes_length_le (objects : List BoardObject) :
    (secBytes objects).length ≤ 43 + 17 * objects.length := by
  have hq : (((objects.map objQuad).map quadBytes).flatten).length =
      4 * objects.length := flatten_map_map_length _ _ 4 _ (fun x => rfl)
  have hbg : (((objects.map bgPair).map pairBytes).flatten).length =
      2 * objects.length := flatten_map_map_length _ _ 2 _ (fun x => rfl)
  have hsz : (objects.map (fun o => o.size % 256)).length = objects.length := by
    simp
  have hpad : (if objects.length % 2 = 1 then ([0] : List Nat) else []).length ≤ 1 := by
    split <;> simp
  have hcol : (((objects.map colQuad).map quadBytes).flatten).length =
      4 * objects.length := flatten_map_map_length _ _ 4 _ (fun x => rfl)
  have harc : (((objects.map arcPair).map pairBytes).flatten).length =
      2 * objects.length := flatten_map_map_length _ _ 2 _ (fun x => rfl)
  have hdon : (((objects.map donPair).map pairBytes).flatten).length =
      2 * objects.length := flatten_map_map_length _ _ 2 _ (fun x => rfl)
  have hrep : ((List.replicate objects.length ([0, 0] : List Nat)).flatten).length =
      2 * objects.length := by
    simp only [List.length_flatten, List.map_replicate, List.length_cons,
      List.length_nil, List.sum_replicate, smul_eq_mul]
    omega
  simp only [secBytes, List.length_cons, List.length_append, hq, hbg, hsz,
    hcol, harc, hdon, hrep]
  omega

theorem rawBytes_length_le (d : Document) :
    (rawBytes d).length ≤ 95 + 23 * d.objects.length := by
  have hicons : ((d.objects.map iconBytes).flatten).length =
      4 * d.objects.length := flatten_length_const _ 4 _ (fun x _ => rfl)
  have h4 := tag4Bytes_length_le d.objects
  have hsec : (if d.objects.length = 0 then [] else secBytes d.objects).length ≤
      43 + 17 * d.objects.length := by
    split
    · simp
    · exact secBytes_length_le d.objects
  simp only [rawBytes, List.length_append, headerPrefix_length,
    nameField_length, hicons, footerBytes, List.length_cons, List.length_nil]
  omega

theorem rawBytes_length_ge (d : Document) : 44 ≤ (rawBytes d).length := by
  simp only [rawBytes, List.length_append, headerPrefix_length,
    nameField_length, footerBytes, List.length_cons, List.length_nil]
  omega

theorem bind_some_reduce {α β : Type} (a : α) (f : α → Option β) :
    (some a >>= f) = f a := rfl

theorem pure_eq_some {α : Type} (a : α) : (pure a : Option α) = some a := rfl

set_option maxHeartbeats 2000000 in
theorem build_binary_eq (d : Document)
    (hobj : ∀ o ∈ d.objects, objOK o)
    (hbb : bgIsValidBoardName d.board_background = true)
    (hn : d.objects.length < 65536) :
    build_binary d = some (writeU32 (writeU32 (rawBytes d) 18
      ((rawBytes d).length - 28)) 4 ((rawBytes d).length - 16)) := by
  obtain ⟨dv, dn, dobjs, dbb⟩ := d
  simp only at hobj hbb hn
  have hicon := mapM_icons dobjs hobj
  have hpos := mapM_pos dobjs hobj
  have hbgm := mapM_bg dobjs hobj
  have hcol := mapM_col dobjs hobj
  have harc := mapM_arc dobjs hobj
  have hdon := mapM_don dobjs hobj
  have hfoot : u16Bytes (boardBgCode dbb) =
      some [boardBgCode dbb % 256, boardBgCode dbb / 256] := by
    rw [u16Bytes, if_pos (boardBg_lt hbb)]
  have hcnt : u16Bytes dobjs.length =
      some [dobjs.length % 256, dobjs.length / 256] := by
    rw [u16Bytes, if_pos hn]
  have hle := rawBytes_length_le ⟨dv, dn, dobjs, dbb⟩
  simp only at hle
  have hps : (rawBytes ⟨dv, dn, dobjs, dbb⟩).length - 28 < 4294967296 := by
    omega
  have hf04 : (rawBytes ⟨dv, dn, dobjs, dbb⟩).length - 16 < 4294967296 := by
    omega
  by_cases h0 : dobjs.length = 0
  · obtain rfl := List.length_eq_zero.mp h0
    simp only [build_binary, hicon, hpos, hbgm, hcol, harc, hdon, hfoot, hcnt,
      List.map_nil, List.flatten_nil, List.length_nil,
      if_pos (rfl : (0 : Nat) = 0), bind_some_reduce, pure_eq_some]
    simp only [Option.map_some', bind_some_reduce]
    simp only [rawBytes, footerBytes, tag4Bytes, List.map_nil,
      List.flatten_nil, List.length_nil, if_pos (rfl : (0 : Nat) = 0),
      if_true, List.append_nil, List.nil_append, List.append_assoc,
      List.cons_append] at hps hf04 ⊢
    rw [if_pos hps, if_pos hf04]
  · by_cases h1 : dobjs.length = 1
    · simp only [build_binary, hicon, hpos, hbgm, hcol, harc, hdon, hfoot,
        hcnt, if_neg h0, if_pos h1]
      simp only [bind_some_reduce, Option.map_some', pure_eq_some]
      obtain ⟨o, rfl⟩ := List.length_eq_one.mp h1
      have hne1 : ¬(1 : Nat) = 0 := by norm_num
      simp only [rawBytes, footerBytes, tag4Bytes, secBytes, List.map_cons,
        List.map_nil, List.flatten_cons, List.flatten_nil, List.length_cons,
        List.length_nil, if_neg h0, if_neg hne1, if_true, List.append_nil,
        List.nil_append, List.append_assoc, List.cons_append, quadBytes,
        pairBytes, zero_add] at hps hf04 ⊢
      rw [if_pos hps, if_pos hf04]
    · simp only [build_binary, hicon, hpos, hbgm, hcol, harc, hdon, hfoot,
        hcnt, if_neg h0, if_neg h1]
      simp only [bind_some_reduce, Option.map_some', pure_eq_some]
      rcases dobjs with _ | ⟨o1, _ | ⟨o2, t⟩⟩
      · simp at h0
      · simp at h1
      · have hne2 : ¬t.length + 1 + 1 = 0 := by omega
        simp only [rawBytes, footerBytes, tag4Bytes, secBytes, List.map_cons,
          List.map_nil, List.flatten_cons, List.flatten_nil, List.length_cons,
          List.length_nil, if_neg h0, if_neg hne2, if_true, List.append_nil,
          List.nil_append, List.append_assoc, List.cons_append, quadBytes,
          pairBytes, zero_add, List.map_map, Function.comp_def] at hps hf04 ⊢
        rw [if_pos hps, if_pos hf04]

/-! ## Parse-side helpers -/

theorem take_append_len {l₁ l₂ : List Nat} {n : Nat} (h : l₁.length = n) :
    (l₁ ++ l₂).take n = l₁ := by
  subst h
  simp

theorem getD_map_get {α : Type} (f : α → Nat) (l : List α) (i : Nat)
    (hi : i < l.length) :
    (l.map f).getD i 0 = f (l.get ⟨i, hi⟩) := by
  rw [List.getD_eq_getElem _ _ (by simpa using hi)]
  simp

theorem get?_map_get {α β : Type} (f : α → β) (l : List α) (i : Nat)
    (hi : i < l.length) :
    (l.map f).get? i = some (f (l.get ⟨i, hi⟩)) := by
  rw [List.get?_eq_get (by simpa using hi)]
  simp

theorem range_map_eq_map {α β : Type} (l : List α) (F : Nat → β) (g : α → β)
    (h : ∀ i : Nat, ∀ hi : i < l.length, F i = g (l.get ⟨i, hi⟩)) :
    (List.range l.length).map F = l.map g := by
  apply List.ext_getElem
  · simp
  · intro i h1 h2
    simp only [List.getElem_map, List.getElem_range]
    simp only [List.length_map] at h2
    rw [h i h2]
    rfl

/-! ## Decoded per-object values, as the tag loop accumulates them -/

def decPos (o : BoardObject) : ℚ × ℚ :=
  ((val16 (objQuad o).1 (objQuad o).2.1 : ℚ) / 10,
   (val16 (objQuad o).2.2.1 (objQuad o).2.2.2 : ℚ) / 10)

def decBg (o : BoardObject) : Nat := (bgPair o).1 + 256 * (bgPair o).2

def decCol (o : BoardObject) : Nat × Nat × Nat × Nat :=
  ((colQuad o).1, (colQuad o).2.1, (colQuad o).2.2.1, (colQuad o).2.2.2)

def decArc (o : BoardObject) : Nat := (arcPair o).1 + 256 * (arcPair o).2

def decDon (o : BoardObject) : Nat := (donPair o).1 + 256 * (donPair o).2

theorem parseTags_tag5_obj (objects : List BoardObject) (rest : List Nat)
    (st : ParseState) :
    parseTags (5 :: 0 :: 3 :: 0 :: objects.length % 256 ::
        objects.length / 256 ::
        (((objects.map objQuad).map quadBytes).flatten ++ rest)) st =
      parseTags rest { st with positions :=
        (st.positions ++ objects.map decPos) } := by
  have h := parseTags_tag5 (objects.map objQuad) rest st
  simpa only [List.length_map, List.map_map, Function.comp_def,
    decPos, decBg, decCol, decArc, decDon] using h

theorem parseTags_tag6_obj (objects : List BoardObject) (rest : List Nat)
    (st : ParseState) :
    parseTags (6 :: 0 :: 1 :: 0 :: objects.length % 256 ::
        objects.length / 256 ::
        (((objects.map bgPair).map pairBytes).flatten ++ rest)) st =
      parseTags rest { st with backgrounds :=
        (st.backgrounds ++ objects.map decBg) } := by
  have h := parseTags_tag6 (objects.map bgPair) rest st
  simpa only [List.length_map, List.map_map, Function.comp_def,
    decPos, decBg, decCol, decArc, decDon] using h

theorem parseTags_tag8_obj (objects : List BoardObject) (rest : List Nat)
    (st : ParseState) :
    parseTags (8 :: 0 :: 2 :: 0 :: objects.length % 256 ::
        objects.length / 256 ::
        (((objects.map colQuad).map quadBytes).flatten ++ rest)) st =
      parseTags rest { st with colors :=
        (st.colors ++ objects.map decCol) } := by
  have h := parseTags_tag8 (objects.map colQuad) rest st
  simpa only [List.length_map, List.map_map, Function.comp_def,
    decPos, decBg, decCol, decArc, decDon] using h

theorem parseTags_tag10_obj (objects : List BoardObject) (rest : List Nat)
    (st : ParseState) :
    parseTags (10 :: 0 :: 1 :: 0 :: objects.length % 256 ::
        objects.length / 256 ::
        (((objects.map arcPair).map pairBytes).flatten ++ rest)) st =
      parseTags rest { st with arc_angles :=
        (st.arc_angles ++ objects.map decArc) } := by
  have h := parseTags_tag10 (objects.map arcPair) rest st
  simpa only [List.length_map, List.map_map, Function.comp_def,
    decPos, decBg, decCol, decArc, decDon] using h

theorem parseTags_tag11_obj (objects : List BoardObject) (rest : List Nat)
    (st : ParseState) :
    parseTags (11 :: 0 :: 1 :: 0 :: objects.length % 256 ::
        objects.length / 256 ::
        (((objects.map donPair).map pairBytes).flatten ++ rest)) st =
      parseTags rest { st with donut_radii :=
        (st.donut_radii ++ objects.map decDon) } := by
  have h := parseTags_tag11 (objects.map donPair) rest st
  simpa only [List.length_map, List.map_map, Function.comp_def,
    decPos, decBg, decCol, decArc, decDon] using h

theorem parseTags_tag7_obj_even (objects : List BoardObject) (rest : List Nat)
    (st : ParseState) (hpar : objects.length % 2 = 0) :
    parseTags (7 :: 0 :: 0 :: 0 :: objects.length % 256 ::
        objects.length / 256 ::
        (objects.map (fun o => o.size % 256) ++ rest)) st =
      parseTags rest { st with sizes :=
        (st.sizes ++ objects.map (fun o => o.size % 256)) } := by
  have h := parseTags_tag7_even (objects.map (fun o => o.size % 256)) rest st
    (by simpa using hpar)
  simp only [List.length_map] at h
  exact h

theorem parseTags_tag7_obj_odd (objects : List BoardObject) (rest : List Nat)
    (st : ParseState) (hpar : objects.length % 2 = 1) :
    parseTags (7 :: 0 :: 0 :: 0 :: objects.length % 256 ::
        objects.length / 256 ::
        (objects.map (fun o => o.size % 256) ++ 0 :: rest)) st =
      parseTags rest { st with sizes :=
        (st.sizes ++ objects.map (fun o => o.size % 256)) } := by
  have h := parseTags_tag7_odd (objects.map (fun o => o.size % 256)) rest st
    (by simpa using hpar)
  simp only [List.length_map] at h
  exact h

theorem parseTags_sec (objects : List BoardObject) (bb : Nat) (st : ParseState)
    (hn : objects.length < 65536) :
    parseTags (secBytes objects ++ footerBytes bb) st =
      some { st with
             positions := (st.positions ++ objects.map decPos),
             backgrounds := (st.backgrounds ++ objects.map decBg),
             sizes := (st.sizes ++ objects.map (fun o => o.size % 256)),
             colors := (st.colors ++ objects.map decCol),
             arc_angles := (st.arc_angles ++ objects.map decArc),
             donut_radii := (st.donut_radii ++ objects.map decDon),
             board_background := some (footerBgName bb) } := by
  have hb1 : bb % 256 + 256 * (bb / 256) = bb := by omega
  simp only [secBytes, footerBytes, List.cons_append, List.append_assoc]
  rw [parseTags_tag5_obj, parseTags_tag6_obj]
  by_cases hpar : objects.length % 2 = 1
  · rw [if_pos hpar]
    simp only [List.cons_append, List.nil_append]
    rw [parseTags_tag7_obj_odd _ _ _ hpar]
    rw [parseTags_tag8_obj, parseTags_tag10_obj, parseTags_tag11_obj]
    rw [parseTags_tag12 _ _ _ hn, parseTags_footer, hb1]
  · rw [if_neg hpar]
    simp only [List.nil_append]
    rw [parseTags_tag7_obj_even _ _ _ (by omega)]
    rw [parseTags_tag8_obj, parseTags_tag10_obj, parseTags_tag11_obj]
    rw [parseTags_tag12 _ _ _ hn, parseTags_footer, hb1]

/-- The tag loop over exactly the byte stream `build_binary` lays down
after the icon pairs. -/
theorem parseTags_full (objects : List BoardObject) (bb : Nat)
    (hn : objects.length < 65536) :
    parseTags (tag4Bytes objects ++
        ((if objects.length = 0 then [] else secBytes objects) ++
          footerBytes bb)) {} =
      some { positions := objects.map decPos,
             backgrounds := objects.map decBg,
             sizes := objects.map (fun o => o.size % 256),
             colors := objects.map decCol,
             arc_angles := objects.map decArc,
             donut_radii := objects.map decDon,
             flagsVal := match objects with
                         | [o] => some (objFlags o)
                         | _ => none,
             board_background := some (footerBgName bb) } := by
  have hb1 : bb % 256 + 256 * (bb / 256) = bb := by omega
  rcases objects with _ | ⟨o1, _ | ⟨o2, t⟩⟩
  · simp only [tag4Bytes, List.length_nil, if_pos (rfl : (0 : Nat) = 0),
      if_true, List.nil_append, footerBytes]
    rw [parseTags_footer, hb1]
    rfl
  · simp only [tag4Bytes, List.length_cons, List.length_nil,
      if_neg (by norm_num : ¬(0 + 1 : Nat) = 0), List.cons_append,
      List.nil_append]
    rw [parseTags_tag4_single, parseTags_sec _ _ _ (by simp)]
    rfl
  · have hrep : List.replicate (o1 :: o2 :: t).length ([1, 0] : List Nat) =
        [1, 0] :: [1, 0] :: List.replicate t.length [1, 0] := by
      simp [List.replicate_succ]
    simp only [tag4Bytes, hrep, List.flatten_cons, List.cons_append,
      List.nil_append,
      if_neg (by simp : ¬((o1 :: o2 :: t).length = 0))]
    rw [parseTags_tag4_multi _ _ _ _ _
      (by simp only [List.length_cons]; omega)
      (by simp [footerBytes, secBytes]),
      parseTags_sec _ _ _ hn]
    rfl

theorem flags_roundtrip (o : BoardObject)
    (h : ¬(o.hidden = true ∧ o.locked = true)) :
    flagsHidden (objFlags o) = o.hidden ∧
      flagsLocked (objFlags o) = o.locked := by
  rcases hh : o.hidden <;> rcases hl : o.locked <;>
    simp_all [objFlags, flagsHidden, flagsLocked]

theorem readU32_writeU32_of_lt {l : List Nat} {i j v : Nat} (h : j + 3 < i) :
    readU32 (writeU32 l i v) j = readU32 l j := by
  simp only [readU32]
  rw [getD_writeU32_ne (Or.inl (by omega)),
    getD_writeU32_ne (Or.inl (by omega)),
    getD_writeU32_ne (Or.inl (by omega)),
    getD_writeU32_ne (Or.inl (by omega))]

/-- One decoded object, as `parse_binary` reassembles it from the
per-property arrays, equals the position-rounded original. -/
theorem decoded_obj_eq (o : BoardObject) (hOK : objOK o) (hh hl : Bool)
    (hhe : hh = o.hidden) (hle : hl = o.locked) :
    ({ type := iconIdToName (effTypeId o), type_id := effTypeId o,
       hidden := hh, locked := hl,
       x := (decPos o).1, y := (decPos o).2,
       background := match lookupName BACKGROUND_TYPES (decBg o) with
                     | some s => BgVal.name s
                     | none => BgVal.code (decBg o),
       size := if 0 < o.size % 256 then o.size % 256 else 100,
       color_r := (decCol o).1, color_g := (decCol o).2.1,
       color_b := (decCol o).2.2.1,
       transparency := if 0 < (decCol o).2.2.2 then (decCol o).2.2.2 else 0,
       arc_angle := if 0 < decArc o then decArc o else 0,
       donut_radius := if 0 < decDon o then decDon o else 0,
       knockback_horizontal := 0 } : BoardObject) = normObj o := by
  have hOK2 := hOK
  obtain ⟨hid, hlt, hty, hx1, hx2, hy1, hy2, hbgo, hsz1, hsz2, hr, hg, hb2,
    ht, harcb, hdonb, hkb⟩ := hOK2
  have hET := (objOK_effTypeId hOK).1
  have hbgC : decBg o = objBgCode o.background := by
    have h := objOK_bgCode hOK
    simp only [decBg, bgPair]
    omega
  have hszC : o.size % 256 = o.size := Nat.mod_eq_of_lt hsz2
  have harcC : decArc o = o.arc_angle := by
    simp only [decArc, arcPair]
    omega
  have hdonC : decDon o = o.donut_radius := by
    have h := objOK_effRadius hOK
    simp only [decDon, donPair]
    omega
  simp only [normObj, BoardObject.mk.injEq]
  refine ⟨?_, hET, hhe, hle, ?_, ?_, ?_, ?_, rfl, rfl, rfl, ?_, ?_, ?_,
    hkb.symm⟩
  · rw [hET, hty]
  · simp only [decPos, objQuad]
    rw [val16_i16 _ hx1 hx2]
  · simp only [decPos, objQuad]
    rw [val16_i16 _ hy1 hy2]
  · rw [hbgC]
    rcases hbg : o.background with s | n
    · rw [hbg] at hbgo
      simp only [bgIsValidObjName, List.contains, List.elem_iff] at hbgo
      rw [objBg_roundtrip s hbgo]
    · rw [hbg] at hbgo
      simp [bgIsValidObjName] at hbgo
  · rw [hszC, if_pos hsz1]
  · simp only [decCol, colQuad]
    split <;> omega
  · rw [harcC]
    split <;> omega
  · rw [hdonC]
    split <;> omega

set_option maxHeartbeats 4000000 in
theorem parse_rawBytes_patched (d : Document)
    (hobj : ∀ o ∈ d.objects, objOK o)
    (hbb : bgIsValidBoardName d.board_background = true)
    (hname : ∀ c ∈ d.name, 0 < c ∧ c < 128)
    (hn : d.objects.length < 65536)
    (hfl1 : d.objects.length = 1 →
      ∀ o ∈ d.objects, ¬(o.hidden = true ∧ o.locked = true))
    (hflN : ¬d.objects.length = 1 →
      ∀ o ∈ d.objects, o.hidden = false ∧ o.locked = false) :
    parse_binary (writeU32 (writeU32 (rawBytes d) 18
        ((rawBytes d).length - 28)) 4 ((rawBytes d).length - 16)) =
      some (roundDoc d) := by
  obtain ⟨dv, dn, dobjs, dbb⟩ := d
  simp only at hobj hbb hname hn hfl1 hflN
  have hge := rawBytes_length_ge ⟨dv, dn, dobjs, dbb⟩
  have hversion : readU32 (writeU32 (writeU32 (rawBytes ⟨dv, dn, dobjs, dbb⟩)
      18 ((rawBytes ⟨dv, dn, dobjs, dbb⟩).length - 28)) 4
      ((rawBytes ⟨dv, dn, dobjs, dbb⟩).length - 16)) 0 = 2 := by
    rw [readU32_writeU32_of_lt (by omega), readU32_writeU32_of_lt (by omega)]
    rfl
  have hdrop28 : (writeU32 (writeU32 (rawBytes ⟨dv, dn, dobjs, dbb⟩)
      18 ((rawBytes ⟨dv, dn, dobjs, dbb⟩).length - 28)) 4
      ((rawBytes ⟨dv, dn, dobjs, dbb⟩).length - 16)).drop 28 =
      nameField dn ++
        ((dobjs.map iconBytes).flatten ++
          (tag4Bytes dobjs ++
            ((if dobjs.length = 0 then [] else secBytes dobjs) ++
              footerBytes (boardBgCode dbb)))) := by
    rw [drop_writeU32_of_lt (by omega), drop_writeU32_of_lt (by omega)]
    rw [rawBytes, List.append_assoc, drop_append_len headerPrefix_length]
  have hdrop36 : (writeU32 (writeU32 (rawBytes ⟨dv, dn, dobjs, dbb⟩)
      18 ((rawBytes ⟨dv, dn, dobjs, dbb⟩).length - 28)) 4
      ((rawBytes ⟨dv, dn, dobjs, dbb⟩).length - 16)).drop 36 =
      (dobjs.map iconBytes).flatten ++
        (tag4Bytes dobjs ++
          ((if dobjs.length = 0 then [] else secBytes dobjs) ++
            footerBytes (boardBgCode dbb))) := by
    rw [drop_writeU32_of_lt (by omega), drop_writeU32_of_lt (by omega)]
    rw [rawBytes, drop_append_len
      (by rw [List.length_append, headerPrefix_length, nameField_length])]
  have hicons : readIcons ((dobjs.map iconBytes).flatten ++
      (tag4Bytes dobjs ++
        ((if dobjs.length = 0 then [] else secBytes dobjs) ++
          footerBytes (boardBgCode dbb)))) =
      (dobjs.map effTypeId,
        tag4Bytes dobjs ++
          ((if dobjs.length = 0 then [] else secBytes dobjs) ++
            footerBytes (boardBgCode dbb))) := by
    have hflat : ((dobjs.map
        (fun o => (effTypeId o % 256, effTypeId o / 256))).map
        (fun p => [2, 0, p.1, p.2])).flatten =
        (dobjs.map iconBytes).flatten := by
      rw [List.map_map]
      congr 1
    have hstop : readU16 (tag4Bytes dobjs ++
        ((if dobjs.length = 0 then [] else secBytes dobjs) ++
          footerBytes (boardBgCode dbb))) ≠ 2 := by
      rcases dobjs with _ | ⟨o, _ | ⟨o2, t⟩⟩ <;>
        simp [tag4Bytes, footerBytes, readU16_cons]
    have hrl : 0 < (tag4Bytes dobjs ++
        ((if dobjs.length = 0 then [] else secBytes dobjs) ++
          footerBytes (boardBgCode dbb))).length := by
      simp [footerBytes]
    have h := readIcons_exact
      (dobjs.map (fun o => (effTypeId o % 256, effTypeId o / 256))) _ hstop hrl
    rw [hflat] at h
    rw [h]
    congr 1
    rw [List.map_map]
    apply List.map_congr_left
    intro o ho
    have h2 := (objOK_effTypeId (hobj o ho)).2
    simp only [Function.comp_apply]
    omega
  simp only [parse_binary, length_writeU32]
  rw [if_neg (by omega)]
  rw [hdrop36, hicons, hdrop28]
  dsimp only
  rw [parseTags_full dobjs (boardBgCode dbb) hn]
  dsimp only
  rw [hversion, take_append_len (nameField_length dn), parse_name dn hname]
  simp only [Option.some.injEq, roundDoc, Document.mk.injEq, List.length_map]
  refine ⟨trivial, trivial, ?_, ?_⟩
  · apply range_map_eq_map
    intro i hi
    rw [get?_map_get decPos dobjs i hi, get?_map_get decBg dobjs i hi,
      get?_map_get (fun o => o.size % 256) dobjs i hi,
      get?_map_get decCol dobjs i hi, get?_map_get decArc dobjs i hi,
      get?_map_get decDon dobjs i hi, getD_map_get effTypeId dobjs i hi]
    dsimp only
    by_cases hone : dobjs.length = 1
    · simp only [if_pos hone]
      obtain ⟨o1, rfl⟩ := List.length_eq_one.mp hone
      have hi0 : i = 0 := by
        simp only [List.length_cons, List.length_nil] at hi
        omega
      subst hi0
      have hfr := flags_roundtrip o1 (hfl1 hone o1 (by simp))
      exact decoded_obj_eq o1 (hobj o1 (by simp)) _ _ hfr.1 hfr.2
    · simp only [if_neg hone]
      have ho := List.get_mem dobjs i hi
      have hfn := hflN hone _ ho
      exact decoded_obj_eq _ (hobj _ ho) false false hfn.1.symm hfn.2.symm
  · rcases hbv : dbb with s | n
    · rw [hbv] at hbb
      simp only [bgIsValidBoardName, List.contains, List.elem_iff] at hbb
      rw [footerBg_roundtrip s hbb]
    · rw [hbv] at hbb
      simp [bgIsValidBoardName] at hbb

/-- Full pipeline round trip: `decode_stgy ∘ encode_stgy` recovers the
document up to `roundDoc` (name truncated to 7 characters, positions
truncated at 0.1 resolution, version pinned), for any compression pair
satisfying the zlib contract. -/
theorem stgy_roundtrip (compress : List Nat → List Nat)
    (decompress : List Nat → Option (List Nat)) (d : Document) (key : Nat)
    (hk : key < 64)
    (hobj : ∀ o ∈ d.objects, objOK o)
    (hbb : bgIsValidBoardName d.board_background = true)
    (hname : ∀ c ∈ d.name, 0 < c ∧ c < 128)
    (hK : d.objects.length ≤ 2000)
    (hfl1 : d.objects.length = 1 →
      ∀ o ∈ d.objects, ¬(o.hidden = true ∧ o.locked = true))
    (hflN : ¬d.objects.length = 1 →
      ∀ o ∈ d.objects, o.hidden = false ∧ o.locked = false)
    (hcomp : ∀ x ∈ compress (writeU32 (writeU32 (rawBytes d) 18
      ((rawBytes d).length - 28)) 4 ((rawBytes d).length - 16)), x < 256)
    (hcd : decompress (compress (writeU32 (writeU32 (rawBytes d) 18
        ((rawBytes d).length - 28)) 4 ((rawBytes d).length - 16))) =
      some (writeU32 (writeU32 (rawBytes d) 18 ((rawBytes d).length - 28)) 4
        ((rawBytes d).length - 16))) :
    ∃ s, encode_stgy compress d key = some s ∧
      decode_stgy decompress s = some (roundDoc d) := by
  have hn : d.objects.length < 65536 := by omega
  have hlenle := rawBytes_length_le d
  have hB := build_binary_eq d hobj hbb hn
  have hBlen : (writeU32 (writeU32 (rawBytes d) 18
      ((rawBytes d).length - 28)) 4 ((rawBytes d).length - 16)).length <
      65536 := by
    simp only [length_writeU32]
    omega
  obtain ⟨s, hs, hdec⟩ := cipher_roundtrip compress decompress
    (writeU32 (writeU32 (rawBytes d) 18 ((rawBytes d).length - 28)) 4
      ((rawBytes d).length - 16)) key hk hBlen hcomp hcd
  refine ⟨s, ?_, ?_⟩
  · rw [encode_stgy, hB]
    simpa using hs
  · rw [decode_stgy, hdec]
    exact parse_rawBytes_patched d hobj hbb hname hn hfl1 hflN

/-! ## Concrete documents for the claim witnesses and counterexamples -/

/-- A small in-domain document: four-character ASCII name, no objects,
valid board background. -/
def dEx : Document :=
  { version := 2, name := [84, 69, 83, 84], objects := [],
    board_background := BgVal.name "none" }

/-- A document whose name has eight ASCII characters (eight UTF-8 bytes). -/
def dEx8 : Document :=
  { version := 2, name := [65, 66, 67, 68, 69, 70, 71, 72], objects := [],
    board_background := BgVal.name "none" }

theorem readU32_writeU32_of_gt {l : List Nat} {i j v : Nat} (h : i + 3 < j) :
    readU32 (writeU32 l i v) j = readU32 l j := by
  simp only [readU32]
  rw [getD_writeU32_ne (Or.inr (by omega)),
    getD_writeU32_ne (Or.inr (by omega)),
    getD_writeU32_ne (Or.inr (by omega)),
    getD_writeU32_ne (Or.inr (by omega))]

/-! ## The claims -/

/-- C2 (amended): the cipher-level round trip
`decode_cipher (encode_cipher b k) = b` holds for every key `k < 64` and
every byte buffer `b` with `b.length < 65536` (not for every buffer of
length ≥ 6: `struct.pack('<H', len)` fails at 65536), given a
compression pair satisfying the zlib contract on `b`. -/
theorem C2_cipher_roundtrip (compress : List Nat → List Nat)
    (decompress : List Nat → Option (List Nat)) (b : List Nat) (key : Nat)
    (hk : key < 64) (hlen : b.length < 65536)
    (hcomp : ∀ x ∈ compress b, x < 256)
    (hcd : decompress (compress b) = some b) :
    ∃ s, encode_cipher compress b key = some s ∧
      decode_cipher decompress s = .ok b :=
  cipher_roundtrip compress decompress b key hk hlen hcomp hcd

theorem C2_cipher_roundtrip_witness :
    ∃ s, encode_cipher idCompress [10, 20, 30, 40, 50, 60] 7 = some s ∧
      decode_cipher idDecompress s = .ok [10, 20, 30, 40, 50, 60] :=
  C2_cipher_roundtrip idCompress idDecompress [10, 20, 30, 40, 50, 60] 7
    (by decide) (by decide) (by decide) rfl

/-- C2 (counterexample to the original wording): a buffer of length 65536
(≥ 6) is not round-tripped -- `encode_cipher` fails on it, modelling the
`struct.error` from `struct.pack('<H', 65536)`. -/
theorem C2_cipher_overflow :
    encode_cipher idCompress (List.replicate 65536 0) 0 = none := by
  rw [encode_cipher, if_neg (by rw [List.length_replicate]; omega)]

/-- C3 (amended): the share string depends on the randomly drawn key (so
two runs of `encode` need not return equal strings), but both encodes
succeed and decode to the same document, so the key draw never changes
the decoded result. -/
theorem C3_decode_key_invariant (compress : List Nat → List Nat)
    (decompress : List Nat → Option (List Nat)) (d : Document)
    (k1 k2 : Nat) (hk1 : k1 < 64) (hk2 : k2 < 64)
    (hobj : ∀ o ∈ d.objects, objOK o)
    (hbb : bgIsValidBoardName d.board_background = true)
    (hname : ∀ c ∈ d.name, 0 < c ∧ c < 128)
    (hK : d.objects.length ≤ 2000)
    (hfl1 : d.objects.length = 1 →
      ∀ o ∈ d.objects, ¬(o.hidden = true ∧ o.locked = true))
    (hflN : ¬d.objects.length = 1 →
      ∀ o ∈ d.objects, o.hidden = false ∧ o.locked = false)
    (hcomp : ∀ x ∈ compress (writeU32 (writeU32 (rawBytes d) 18
      ((rawBytes d).length - 28)) 4 ((rawBytes d).length - 16)), x < 256)
    (hcd : decompress (compress (writeU32 (writeU32 (rawBytes d) 18
        ((rawBytes d).length - 28)) 4 ((rawBytes d).length - 16))) =
      some (writeU32 (writeU32 (rawBytes d) 18 ((rawBytes d).length - 28)) 4
        ((rawBytes d).length - 16))) :
    ∃ s1 s2, encode_stgy compress d k1 = some s1 ∧
      encode_stgy compress d k2 = some s2 ∧
      decode_stgy decompress s1 = decode_stgy decompress s2 := by
  obtain ⟨s1, h1, h1d⟩ := stgy_roundtrip compress decompress d k1 hk1 hobj
    hbb hname hK hfl1 hflN hcomp hcd
  obtain ⟨s2, h2, h2d⟩ := stgy_roundtrip compress decompress d k2 hk2 hobj
    hbb hname hK hfl1 hflN hcomp hcd
  exact ⟨s1, s2, h1, h2, by rw [h1d, h2d]⟩

theorem C3_decode_key_invariant_witness :
    ∃ s1 s2, encode_stgy idCompress dEx 0 = some s1 ∧
      encode_stgy idCompress dEx 1 = some s2 ∧
      decode_stgy idDecompress s1 = decode_stgy idDecompress s2 :=
  C3_decode_key_invariant idCompress idDecompress dEx 0 1 (by decide)
    (by decide) (by decide) (by decide) (by decide) (by decide) (by decide)
    (by decide) (by decide) rfl

/-- C3 (counterexample to the original wording): with the two possible
key draws 0 and 1, the two runs of `encode` on the same document return
different share strings -- the pipeline is not deterministic in the
produced string. -/
theorem C3_encode_key_dependent :
    encode_stgy idCompress dEx 0 ≠ encode_stgy idCompress dEx 1 := by
  decide

/-- C5 (amended): the u16 header slot at offset 0x18 is the constant 1
in every built binary -- `struct.pack('<H', 1)` -- whatever the object
count (not the literal count for `n ≤ 1`); and `parse_binary` never
reads bytes 24/25, so the slot's value cannot influence the decoded
document. -/
theorem C5_count_slot (d : Document)
    (hobj : ∀ o ∈ d.objects, objOK o)
    (hbb : bgIsValidBoardName d.board_background = true)
    (hn : d.objects.length < 65536) :
    (∃ B, build_binary d = some B ∧ readU16 (B.drop 24) = 1) ∧
      ∀ (data : List Nat) (a b : Nat),
        parse_binary ((data.set 24 a).set 25 b) = parse_binary data := by
  constructor
  · refine ⟨_, build_binary_eq d hobj hbb hn, ?_⟩
    rw [drop_writeU32_of_lt (by omega), drop_writeU32_of_lt (by omega)]
    rfl
  · intro data a b
    have h1 : ((data.set 24 a).set 25 b).length = data.length := by simp
    have h2 : ((data.set 24 a).set 25 b).drop 28 = data.drop 28 := by
      rw [drop_set_of_lt (by omega), drop_set_of_lt (by omega)]
    have h3 : ((data.set 24 a).set 25 b).drop 36 = data.drop 36 := by
      rw [drop_set_of_lt (by omega), drop_set_of_lt (by omega)]
    have h4 : readU32 ((data.set 24 a).set 25 b) 0 = readU32 data 0 := by
      simp only [readU32]
      rw [getD_set_ne (by omega), getD_set_ne (by omega),
        getD_set_ne (by omega), getD_set_ne (by omega),
        getD_set_ne (by omega), getD_set_ne (by omega),
        getD_set_ne (by omega), getD_set_ne (by omega)]
    simp only [parse_binary, h1, h2, h3, h4]

theorem C5_count_slot_witness :
    (∃ B, build_binary dEx = some B ∧ readU16 (B.drop 24) = 1) ∧
      ∀ (data : List Nat) (a b : Nat),
        parse_binary ((data.set 24 a).set 25 b) = parse_binary data :=
  C5_count_slot dEx (by decide) (by decide) (by decide)

/-- C5 (counterexample to the original wording): for the empty board the
object count is 0 yet the slot holds 1, so the slot does not equal the
literal object count for `n ≤ 1`. -/
theorem C5_empty_board_slot :
    ∃ B, build_binary dEx = some B ∧
      readU16 (B.drop 24) ≠ dEx.objects.length := by
  decide

/-- C8: after assembly the u32 at 0x12 is the total length minus 0x1C
and the u32 at 0x04 is the total length minus 16 (the back-patched
`pack_into` pair at the end of `build_binary`). -/
theorem C8_backpatch (d : Document)
    (hobj : ∀ o ∈ d.objects, objOK o)
    (hbb : bgIsValidBoardName d.board_background = true)
    (hn : d.objects.length < 65536) :
    ∃ B, build_binary d = some B ∧
      readU32 B 18 = B.length - 28 ∧ readU32 B 4 = B.length - 16 := by
  refine ⟨_, build_binary_eq d hobj hbb hn, ?_, ?_⟩
  all_goals
    have hge := rawBytes_length_ge d
    have hle := rawBytes_length_le d
    simp only [length_writeU32]
  · rw [readU32_writeU32_of_gt (by omega),
      readU32_writeU32 (by omega) (by omega)]
  · rw [readU32_writeU32 (by simp only [length_writeU32]; omega) (by omega)]

theorem C8_backpatch_witness :
    ∃ B, build_binary dEx = some B ∧
      readU32 B 18 = B.length - 28 ∧ readU32 B 4 = B.length - 16 :=
  C8_backpatch dEx (by decide) (by decide) (by decide)

/-- C9: the per-object background table (tag 6) and the footer
board-background table (tag 3) map the same seven names with bases
offset by one ("none" is 0 per-object, 1 in the footer), and the two
lookups stay separate: the decoder's tag-6 table is `BACKGROUND_TYPES`
(0-based) while the footer decode uses `decFooterBgNames` (1-based). -/
theorem C9_background_tables :
    (∀ s ∈ encObjBgMap.map Prod.fst,
      boardBgCode (BgVal.name s) = objBgCode (BgVal.name s) + 1 ∧
      footerBgName (boardBgCode (BgVal.name s)) = s ∧
      lookupName BACKGROUND_TYPES (objBgCode (BgVal.name s)) = some s) ∧
    objBgCode (BgVal.name "none") = 0 ∧
    boardBgCode (BgVal.name "none") = 1 ∧
    footerBgName 0 = "unknown_0" ∧
    lookupName BACKGROUND_TYPES 0 = some "none" := by
  decide

/-- C1 (amended): for documents with at most 2000 in-domain objects the
full pipeline round-trips up to `roundDoc`: the name is truncated to 7
characters (`data.get("name", "board")[:7]`), not to 8 bytes, positions
are truncated toward zero at 0.1 resolution, the version is pinned to 2,
and the single-object hidden/locked flags survive only when not both
set. -/
theorem C1_roundtrip (compress : List Nat → List Nat)
    (decompress : List Nat → Option (List Nat)) (d : Document) (key : Nat)
    (hk : key < 64)
    (hobj : ∀ o ∈ d.objects, objOK o)
    (hbb : bgIsValidBoardName d.board_background = true)
    (hname : ∀ c ∈ d.name, 0 < c ∧ c < 128)
    (hK : d.objects.length ≤ 2000)
    (hfl1 : d.objects.length = 1 →
      ∀ o ∈ d.objects, ¬(o.hidden = true ∧ o.locked = true))
    (hflN : ¬d.objects.length = 1 →
      ∀ o ∈ d.objects, o.hidden = false ∧ o.locked = false)
    (hcomp : ∀ x ∈ compress (writeU32 (writeU32 (rawBytes d) 18
      ((rawBytes d).length - 28)) 4 ((rawBytes d).length - 16)), x < 256)
    (hcd : decompress (compress (writeU32 (writeU32 (rawBytes d) 18
        ((rawBytes d).length - 28)) 4 ((rawBytes d).length - 16))) =
      some (writeU32 (writeU32 (rawBytes d) 18 ((rawBytes d).length - 28)) 4
        ((rawBytes d).length - 16))) :
    ∃ s, encode_stgy compress d key = some s ∧
      decode_stgy decompress s = some (roundDoc d) :=
  stgy_roundtrip compress decompress d key hk hobj hbb hname hK hfl1 hflN
    hcomp hcd

theorem C1_roundtrip_witness :
    ∃ s, encode_stgy idCompress dEx 0 = some s ∧
      decode_stgy idDecompress s = some (roundDoc dEx) :=
  C1_roundtrip idCompress idDecompress dEx 0 (by decide) (by decide)
    (by decide) (by decide) (by decide) (by decide) (by decide) (by decide)
    rfl

/-- C1 (counterexample to the original wording): an eight-character
ASCII name is eight UTF-8 bytes, so truncation to 8 bytes would keep it
whole; the decoded document's name is the 7-character truncation
instead. -/
theorem C1_name_truncated_to_7 :
    ∃ s, encode_stgy idCompress dEx8 0 = some s ∧
      decode_stgy idDecompress s = some (roundDoc dEx8) ∧
      (roundDoc dEx8).name ≠ (utf8Encode dEx8.name).take 8 := by
  obtain ⟨s, h1, h2⟩ := stgy_roundtrip idCompress idDecompress dEx8 0
    (by decide) (by decide) (by decide) (by decide) (by decide) (by decide)
    (by decide) (by decide) rfl
  exact ⟨s, h1, h2, by decide⟩

/-- C4 (amended): known names round-trip through the registry, and an
unknown id `X` decodes to the synthetic name `unknown_X`; but re-encoding
that synthetic name falls back to the default id 47 (`ICON_TYPE_IDS.get`
with default 47), so `nameToId (idToName X) = 47`, not `X`. -/
theorem C4_registry (X : Nat)
    (hX : lookupName ICON_TYPES X = none)
    (hU : lookupStr ICON_TYPE_IDS ("unknown_" ++ Nat.repr X) = none) :
    iconIdToName X = "unknown_" ++ Nat.repr X ∧
    iconNameToId (iconIdToName X) = 47 ∧
    (∀ p ∈ ICON_TYPE_IDS, iconIdToName (iconNameToId p.1) = p.1) := by
  have h1 : iconIdToName X = "unknown_" ++ Nat.repr X := by
    rw [iconIdToName, hX]
    rfl
  refine ⟨h1, ?_, by set_option maxRecDepth 10000 in decide⟩
  rw [h1, iconNameToId, hU]
  rfl

set_option maxRecDepth 10000 in
theorem C4_registry_witness :
    iconIdToName 99 = "unknown_" ++ Nat.repr 99 ∧
    iconNameToId (iconIdToName 99) = 47 ∧
    (∀ p ∈ ICON_TYPE_IDS, iconIdToName (iconNameToId p.1) = p.1) :=
  C4_registry 99 (by decide) (by decide)

/-- C4 (counterexample to the original wording): the unknown id 99 maps
to the synthetic name `unknown_99`, but `nameToId` sends that name to
the default 47, not back to 99. -/
theorem C4_unknown_not_inverted :
    iconIdToName 99 = "unknown_99" ∧ iconNameToId "unknown_99" = 47 ∧
      iconNameToId (iconIdToName 99) ≠ 99 := by
  decide

/-- The spec's wrapper grammar, modelled from its words (§3/§6: an ASCII
string of the shape `[stgy:a<keyChar><payload>]`): the seven prefix
bytes `[stgy:a` and a closing `]`. This definition follows the SPEC, not
the code -- the code never checks this shape. -/
def specWrapperShape (l : List Nat) : Bool :=
  decide (l.take 7 = stgyPrefix) && decide (l.getLast? = some 93) &&
    decide (9 ≤ l.length)

/-- C6 (amended): the decoder never validates the wrapper shape -- the
cipher stage is a function of the blind slice `(l.drop 7).dropLast`
alone, so any two inputs agreeing there decode alike, whatever their
bracket or prefix bytes. -/
theorem C6_no_shape_check (l1 l2 : List Nat)
    (h : (l1.drop 7).dropLast = (l2.drop 7).dropLast) :
    decode_cipher_stages l1 = decode_cipher_stages l2 := by
  rw [decode_cipher_stages, decode_cipher_stages, h]

theorem C6_no_shape_check_witness :
    decode_cipher_stages [0, 0, 0, 0, 0, 0, 0, 70, 66] =
      decode_cipher_stages [91, 115, 116, 103, 121, 58, 97, 70, 66] :=
  C6_no_shape_check _ _ (by decide)

/-- C6 (counterexample to the original wording): an input that is not of
the form `[stgy:a...]` at all is still decoded without a `FormatError`:
the cipher stage returns a payload, not an error. -/
theorem C6_malformed_wrapper_accepted :
    specWrapperShape [65, 65, 65, 65, 65, 65, 65, 102, 102, 102, 102,
      102, 66] = false ∧
    decode_cipher_stages [65, 65, 65, 65, 65, 65, 65, 102, 102, 102, 102,
      102, 66] = .ok [] := by
  exact ⟨by decide, rfl⟩

theorem readPairs_nil (m : Nat) : readPairs [] m = ([], []) := by
  cases m <;> rfl

theorem parse_truncated_tag5 (k : Nat) :
    parse_binary (headerPrefix ++ nameField [84] ++
        ([2, 0, 47, 0] ++ [5, 0, 3, 0, k % 256, k / 256])) =
      some { version := 2, name := [84],
             objects := [{ type := iconIdToName 47, type_id := 47 }],
             board_background := BgVal.code 1 } := by
  have hlen : ¬(headerPrefix ++ nameField [84] ++
      ([2, 0, 47, 0] ++ [5, 0, 3, 0, k % 256, k / 256])).length < 4 := by
    simp [headerPrefix_length, nameField_length]
  have hd28 : (headerPrefix ++ nameField [84] ++
      ([2, 0, 47, 0] ++ [5, 0, 3, 0, k % 256, k / 256])).drop 28 =
      nameField [84] ++ ([2, 0, 47, 0] ++
        [5, 0, 3, 0, k % 256, k / 256]) := by
    rw [List.append_assoc, drop_append_len headerPrefix_length]
  have hd36 : (headerPrefix ++ nameField [84] ++
      ([2, 0, 47, 0] ++ [5, 0, 3, 0, k % 256, k / 256])).drop 36 =
      [2, 0, 47, 0] ++ [5, 0, 3, 0, k % 256, k / 256] := by
    rw [drop_append_len
      (by rw [List.length_append, headerPrefix_length, nameField_length])]
  have hname : stripNul (utf8DecodeReplace (rstripNul ((nameField [84] ++
      ([2, 0, 47, 0] ++ [5, 0, 3, 0, k % 256, k / 256])).take 8))) =
      [84] := by
    rw [take_append_len (nameField_length [84]), parse_name [84] (by decide)]
    rfl
  have hri : readIcons ([2, 0, 47, 0] ++ [5, 0, 3, 0, k % 256, k / 256]) =
      ([47], [5, 0, 3, 0, k % 256, k / 256]) := by
    have h := readIcons_exact [(47, 0)] [5, 0, 3, 0, k % 256, k / 256]
      (by rw [readU16_cons]; omega) (by simp)
    simpa using h
  have hpt : parseTags [5, 0, 3, 0, k % 256, k / 256] {} = some {} := by
    rw [parseTags]
    rw [dif_pos (by simp only [List.length_cons]; omega)]
    have htag : readU16 [5, 0, 3, 0, k % 256, k / 256] = 5 := by
      rw [readU16_cons]
    have hd6 : ([5, 0, 3, 0, k % 256, k / 256] : List Nat).drop 6 = [] := rfl
    simp only [htag, hd6]
    rw [if_neg (by norm_num : ¬(5 : Nat) = 4)]
    simp only [if_true]
    rw [if_neg (by simp only [List.length_cons, List.length_nil]; omega)]
    rw [readPairs_nil]
    rw [parseTags_stop _ _ (by simp)]
    rfl
  rw [parse_binary, if_neg hlen, hd36, hri]
  dsimp only
  rw [hpt]
  dsimp only
  rw [hd28, hname]
  rfl

/-- C7 (amended): a property section that extends past the end of the
buffer is not an error: whatever element count `k` the truncated tag-5
header declares, `parse_binary` silently returns a document whose object
carries the default position, instead of failing. -/
theorem C7_truncated_section_parses (k : Nat) :
    parse_binary (headerPrefix ++ nameField [84] ++
        ([2, 0, 47, 0] ++ [5, 0, 3, 0, k % 256, k / 256])) =
      some { version := 2, name := [84],
             objects := [{ type := iconIdToName 47, type_id := 47 }],
             board_background := BgVal.code 1 } :=
  parse_truncated_tag5 k

/-- C7 (counterexample to the original wording): a 46-byte buffer whose
tag-5 section declares one element (four position bytes) but ends right
after the count still parses to a full document -- no error of any kind,
against the spec's promised `LayoutError`. -/
theorem C7_silent_truncation_example :
    parse_binary (headerPrefix ++ nameField [84] ++
        ([2, 0, 47, 0] ++ [5, 0, 3, 0, 1, 0])) =
      some { version := 2, name := [84],
             objects := [{ type := iconIdToName 47, type_id := 47 }],
             board_background := BgVal.code 1 } ∧
    (headerPrefix ++ nameField [84] ++
        ([2, 0, 47, 0] ++ [5, 0, 3, 0, 1, 0])).length = 46 := by
  have h := parse_truncated_tag5 1
  exact ⟨h, by decide⟩

theorem parse_size_byte (s : Nat) :
    parse_binary (headerPrefix ++ nameField [84] ++
        ([2, 0, 47, 0] ++ (7 :: 0 :: 0 :: 0 :: 1 :: 0 :: s :: 0 ::
          footerBytes 1))) =
      some { version := 2, name := [84],
             objects := [{ type := iconIdToName 47, type_id := 47,
                           size := if 0 < s then s else 100 }],
             board_background := BgVal.name "none" } := by
  have hlen : ¬(headerPrefix ++ nameField [84] ++
      ([2, 0, 47, 0] ++ (7 :: 0 :: 0 :: 0 :: 1 :: 0 :: s :: 0 ::
        footerBytes 1))).length < 4 := by
    simp [headerPrefix_length, nameField_length, footerBytes]
  have hd28 : (headerPrefix ++ nameField [84] ++
      ([2, 0, 47, 0] ++ (7 :: 0 :: 0 :: 0 :: 1 :: 0 :: s :: 0 ::
        footerBytes 1))).drop 28 =
      nameField [84] ++ ([2, 0, 47, 0] ++
        (7 :: 0 :: 0 :: 0 :: 1 :: 0 :: s :: 0 :: footerBytes 1)) := by
    rw [List.append_assoc, drop_append_len headerPrefix_length]
  have hd36 : (headerPrefix ++ nameField [84] ++
      ([2, 0, 47, 0] ++ (7 :: 0 :: 0 :: 0 :: 1 :: 0 :: s :: 0 ::
        footerBytes 1))).drop 36 =
      [2, 0, 47, 0] ++ (7 :: 0 :: 0 :: 0 :: 1 :: 0 :: s :: 0 ::
        footerBytes 1) := by
    rw [drop_append_len
      (by rw [List.length_append, headerPrefix_length, nameField_length])]
  have hname : stripNul (utf8DecodeReplace (rstripNul ((nameField [84] ++
      ([2, 0, 47, 0] ++ (7 :: 0 :: 0 :: 0 :: 1 :: 0 :: s :: 0 ::
        footerBytes 1))).take 8))) = [84] := by
    rw [take_append_len (nameField_length [84]), parse_name [84] (by decide)]
    rfl
  have hri : readIcons ([2, 0, 47, 0] ++
      (7 :: 0 :: 0 :: 0 :: 1 :: 0 :: s :: 0 :: footerBytes 1)) =
      ([47], 7 :: 0 :: 0 :: 0 :: 1 :: 0 :: s :: 0 :: footerBytes 1) := by
    have h := readIcons_exact [(47, 0)]
      (7 :: 0 :: 0 :: 0 :: 1 :: 0 :: s :: 0 :: footerBytes 1)
      (by rw [readU16_cons]; omega) (by simp)
    simpa using h
  have hpt : parseTags
      (7 :: 0 :: 0 :: 0 :: 1 :: 0 :: s :: 0 :: footerBytes 1) {} =
      some { sizes := [s],
             board_background := some (footerBgName 1) } := by
    have h7 := parseTags_tag7_odd [s] (footerBytes 1) {} (by simp)
    simp only [List.length_cons, List.length_nil, List.cons_append,
      List.nil_append, zero_add] at h7
    rw [h7]
    rw [show footerBytes 1 = [3, 0, 1, 0, 1, 0, 1, 0] from rfl]
    rw [parseTags_footer]
  rw [parse_binary, if_neg hlen, hd36, hri]
  dsimp only
  rw [hpt]
  dsimp only
  rw [hd28, hname]
  rfl

/-- C10: every object of every document `parse_binary` returns has a
size of at least 1: a stored byte `s` decodes to `s` when `0 < s` and to
the default 100 otherwise, and a missing entry decodes to 100 -- so a
stored size of 0 is indistinguishable from a stored 100: the two
buffers differing only in that byte parse to the same document. -/
theorem C10_size_positive :
    (∀ (data : List Nat) (doc : Document), parse_binary data = some doc →
      ∀ o ∈ doc.objects, 1 ≤ o.size) ∧
    parse_binary (headerPrefix ++ nameField [84] ++
        ([2, 0, 47, 0] ++ (7 :: 0 :: 0 :: 0 :: 1 :: 0 :: 0 :: 0 ::
          footerBytes 1))) =
      parse_binary (headerPrefix ++ nameField [84] ++
        ([2, 0, 47, 0] ++ (7 :: 0 :: 0 :: 0 :: 1 :: 0 :: 100 :: 0 ::
          footerBytes 1))) := by
  constructor
  case right =>
    rw [parse_size_byte 0, parse_size_byte 100]
    norm_num
  intro data doc hp o ho
  simp only [parse_binary] at hp
  by_cases h4 : data.length < 4
  · rw [if_pos h4] at hp
    cases hp
  · rw [if_neg h4] at hp
    rcases hpt : parseTags (readIcons (data.drop 36)).2 {} with _ | st
    · rw [hpt] at hp
      cases hp
    · rw [hpt] at hp
      dsimp only at hp
      rw [Option.some.injEq] at hp
      subst hp
      simp only [List.mem_map] at ho
      obtain ⟨i, hmem, rfl⟩ := ho
      dsimp only
      rcases hs : st.sizes.get? i with _ | s
      · simp [hs]
      · simp only [hs]
        split <;> omega

theorem C10_size_positive_witness :
    parse_binary (List.replicate 36 0) =
      some { version := 0, name := [], objects := [],
             board_background := BgVal.code 1 } ∧
    (∀ o ∈ ({ version := 0, name := [], objects := [],
              board_background := BgVal.code 1 } : Document).objects,
      1 ≤ o.size) := by
  have hp : parse_binary (List.replicate 36 0) =
      some { version := 0, name := [], objects := [],
             board_background := BgVal.code 1 } := by
    rw [parse_binary, if_neg (by rw [List.length_replicate]; omega)]
    have hd36 : (List.replicate 36 0).drop 36 = [] := rfl
    have hri : readIcons ([] : List Nat) = ([], []) := by
      rw [readIcons]
      norm_num
    have hpt : parseTags [] {} = some {} := parseTags_stop [] {} (by simp)
    rw [hd36, hri]
    dsimp only
    rw [hpt]
    dsimp only
    have hname : stripNul (utf8DecodeReplace (rstripNul
        (((List.replicate 36 0).drop 28).take 8))) = [] := by
      have h1 : rstripNul (((List.replicate 36 0).drop 28).take 8) = [] :=
        rfl
      rw [h1, utf8DecodeReplace_ascii [] (by simp)]
      rfl
    rw [hname]
    rfl
  exact ⟨hp, C10_size_positive.1 _ _ hp⟩
